import Mathlib

/-!
Verification of the execution core of Workload Automation
(`wlauto/core/execution.py`): the execution context's artifact bookkeeping,
the signal-wrap helper, the scheduler policies, and the Runner's job loop
with its retry, interrupt and device-error handling.  Each definition is a
shallow embedding of the corresponding Python function; comments cite the
source symbol.
-/

namespace WA

/-! ## Statuses and artifacts -/

/-- `IterationResult` statuses (wlauto.core.result.IterationResult). -/
inductive Status where
  | NOT_STARTED
  | RUNNING
  | OK
  | PARTIAL
  | NONCRITICAL
  | FAILED
  | ABORTED
  | SKIPPED
deriving DecidableEq, Repr

/-- Artifact scope levels: `Artifact.RUN = 'run'`, `Artifact.ITERATION = 'iteration'`
(wlauto.core.plugin.Artifact class constants). -/
inductive Scope where
  | RUN
  | ITERATION
deriving DecidableEq, Repr

/-- An `Artifact` as constructed positionally by execution.py:
`Artifact(name, path, kind, level, ...)`.  The constructor signature
is modelled from the spec's data model, `(name, path, kind, scope, ...)`,
because `wlauto/core/plugin.py` is not part of the sources; the fourth
positional argument is the scope level. -/
structure Artifact where
  name : String
  path : String
  kind : String
  level : Scope
deriving DecidableEq, Repr

/-- A host filesystem abstracted to the one query the code performs,
`os.path.isfile`. -/
structure FS where
  isfile : String → Bool

/-- Python `str.startswith`: the second string is a prefix of the first
(computed on the character lists so that it evaluates by kernel
reduction). -/
def pyStartswith (s pre : String) : Bool :=
  pre.data.isPrefixOf s.data

/-- Python `str.endswith` on the character lists. -/
def pyEndswith (s suf : String) : Bool :=
  suf.data.isSuffixOf s.data

/-- `os.path.join` of two POSIX components: an absolute second component
replaces the first. -/
def osJoin (a b : String) : String :=
  if pyStartswith b "/" then b
  else if pyEndswith a "/" then a ++ b
  else a ++ "/" ++ b

/-- `os.path.abspath` relative to a working directory `cwd`
(path normalization is elided: absolute inputs are returned unchanged). -/
def osAbspath (cwd p : String) : String :=
  if pyStartswith p "/" then p else osJoin cwd p

/-- `_check_artifact_path(path, rootpath)`: a path that starts with the
root path string is accepted as-is (made absolute); otherwise the path is
joined to the absolute root and must name an existing file, else a
`ValueError` is raised. -/
def check_artifact_path (fs : FS) (cwd path rootpath : String) :
    Except String String :=
  if pyStartswith path rootpath then
    .ok (osAbspath cwd path)
  else
    let rootabs := osAbspath cwd rootpath
    let full_path := osJoin rootabs path
    if fs.isfile full_path then .ok full_path
    else .error ("Cannot add artifact because " ++ full_path ++ " does not exist.")

/-- The slice of `ExecutionContext` state used by the artifact operations.
`current_job` records whether a job is active; `iteration_artifacts` is
`None` until `next_job` first populates it. -/
structure ArtCtx where
  current_job : Bool
  run_output_directory : String
  output_directory : String
  run_artifacts : List Artifact
  iteration_artifacts : Option (List Artifact)
deriving DecidableEq, Repr

/-- `ExecutionContext.add_run_artifact`: checks the path against
`run_output_directory` and appends to `run_artifacts`.  The source passes
`Artifact.ITERATION` as the level argument here. -/
def add_run_artifact (fs : FS) (cwd : String) (ctx : ArtCtx)
    (name path kind : String) : Except String ArtCtx :=
  match check_artifact_path fs cwd path ctx.run_output_directory with
  | .error e => .error e
  | .ok p =>
      let arts := ctx.run_artifacts ++ [⟨name, p, kind, Scope.ITERATION⟩]
      .ok { ctx with run_artifacts := arts }

/-- `ExecutionContext.add_iteration_artifact`: checks the path against
`output_directory` and appends to `iteration_artifacts`.  The source passes
`Artifact.RUN` as the level argument here. -/
def add_iteration_artifact (fs : FS) (cwd : String) (ctx : ArtCtx)
    (name path kind : String) : Except String ArtCtx :=
  match check_artifact_path fs cwd path ctx.output_directory with
  | .error e => .error e
  | .ok p =>
      let arts := (ctx.iteration_artifacts.getD []) ++ [⟨name, p, kind, Scope.RUN⟩]
      .ok { ctx with iteration_artifacts := some arts }

/-- `ExecutionContext.add_artifact`: routes to the run if no job is active,
else to the current iteration. -/
def add_artifact (fs : FS) (cwd : String) (ctx : ArtCtx)
    (name path kind : String) : Except String ArtCtx :=
  if ctx.current_job then add_iteration_artifact fs cwd ctx name path kind
  else add_run_artifact fs cwd ctx name path kind

/-- The linear scan of the two `for` loops in `ExecutionContext.get_artifact`. -/
def scanByName (name : String) : List Artifact → Option Artifact
  | [] => none
  | a :: rest => if a.name == name then some a else scanByName name rest

/-- `ExecutionContext.get_artifact(name)`: scans `iteration_artifacts` when
that list is truthy (not `None` and non-empty), then falls back to
`run_artifacts`, and returns `None` when neither contains the name.
It only reads the two lists and cannot raise. -/
def get_artifact (ctx : ArtCtx) (name : String) : Option Artifact :=
  let fromIteration :=
    match ctx.iteration_artifacts with
    | none => none
    | some l => if l.isEmpty then none else scanByName name l
  match fromIteration with
  | some a => some a
  | none => scanByName name ctx.run_artifacts

/-! ## The signal-wrap helper -/

/-- Lifecycle signals as emitted by `Runner._signal_wrap`, which looks up
`BEFORE_<name>`, `SUCCESSFUL_<name>` and `AFTER_<name>` on the signal module. -/
inductive Sig where
  | BEFORE (name : String)
  | SUCCESSFUL (name : String)
  | AFTER (name : String)
deriving DecidableEq, Repr

/-- The effect of a signal-emitting computation: the trace it emits and its
result (`Except` models a raised exception). -/
abbrev SigRes := List Sig × Except String Unit

/-- `signal.send`: emits one signal and returns normally. -/
def emit (x : Sig) : SigRes := ([x], .ok ())

/-- Sequencing of two effects: the second runs only when the first
returned normally. -/
def sigSeq (a b : SigRes) : SigRes :=
  match a.2 with
  | .ok _ => (a.1 ++ b.1, b.2)
  | .error e => (a.1, .error e)

/-- `try ... finally ...`: the finalizer runs on every exit path; its own
failure replaces the protected block's result. -/
def tryFinallyS (a b : SigRes) : SigRes :=
  (a.1 ++ b.1, match b.2 with | .ok _ => a.2 | .error e => .error e)

/-- `Runner._signal_wrap(signal_name)`: sends `BEFORE`, runs the body, sends
`SUCCESSFUL` when the body returned, and always sends `AFTER` in the
`finally` clause. -/
def signal_wrap (name : String) (body : SigRes) : SigRes :=
  tryFinallyS
    (sigSeq (emit (.BEFORE name)) (sigSeq body (emit (.SUCCESSFUL name))))
    (emit (.AFTER name))

/-! ## Specs, jobs and scheduler policies -/

/-- The slice of a `WorkloadSpec` the scheduler policies read:
`id`, optional `section_id` and `number_of_iterations`. -/
structure WSpec where
  sid : Nat
  section_id : Option Nat
  label : String
  number_of_iterations : Nat
deriving DecidableEq, Repr

/-- A `RunnerJob` together with the verification ghost fields `executed`
(the workload body ran for this job) and `abortedAtInit` (the context was
already aborted when `next_job` admitted it). -/
structure RJob where
  spec : WSpec
  retry : Nat
  iteration : Option Nat
  status : Status
  executed : Bool
  abortedAtInit : Bool
deriving DecidableEq, Repr

/-- `RunnerJob(spec, retry)`: a fresh job with a fresh `IterationResult`
(whose status starts at the pre-start sentinel). -/
def RunnerJob (spec : WSpec) (retry : Nat) : RJob :=
  ⟨spec, retry, none, .NOT_STARTED, false, false⟩

/-- `[RunnerJob(s) for _ in xrange(s.number_of_iterations)]`. -/
def mkJobs (s : WSpec) : List RJob :=
  List.replicate s.number_of_iterations (RunnerJob s 0)

/-- Length of the longest member, i.e. the number of rounds
`izip_longest` produces. -/
def roundsMax (ls : List (List α)) : Nat :=
  ls.foldr (fun l m => max l.length m) 0

/-- Concatenation of a list of lists. -/
def concatAll : List (List α) → List α
  | [] => []
  | l :: ls => l ++ concatAll ls

/-- `[j for spec_jobs in izip_longest(*ls) for j in spec_jobs if j]`:
round `i` collects the `i`-th element of every member that has one, in
member order; rounds are concatenated in order and the `None` padding is
dropped. -/
def zipLongestFlatten (ls : List (List α)) : List α :=
  concatAll ((List.range (roundsMax ls)).map (fun i => ls.filterMap (fun l => l[i]?)))

/-- `BySpecRunner.init_queue`: all iterations of each spec, in spec order. -/
def bySpec_init_queue (specs : List WSpec) : List RJob :=
  concatAll (specs.map mkJobs)

/-- `BySectionRunner.init_queue`: `izip_longest` across the per-spec job
lists, flattened; the specs' `section_id` is never consulted. -/
def bySection_init_queue (specs : List WSpec) : List RJob :=
  zipLongestFlatten (specs.map mkJobs)

/-- First-seen-order deduplication with an accumulator of already-seen
keys, as an `OrderedDict`'s key insertion order. -/
def firstSeenAux (seen : List (Option Nat)) : List (Option Nat) → List (Option Nat)
  | [] => []
  | k :: ks =>
      if seen.contains k then firstSeenAux seen ks
      else k :: firstSeenAux (k :: seen) ks

/-- The `OrderedDict` key order of `ByIterationRunner.init_queue`. -/
def firstSeen (l : List (Option Nat)) : List (Option Nat) :=
  firstSeenAux [] l

/-- `ByIterationRunner.init_queue`: groups the specs by `section_id` in an
`OrderedDict` (first-seen order), round-robins the specs across sections,
then round-robins the jobs across the resulting spec order. -/
def byIteration_init_queue (specs : List WSpec) : List RJob :=
  let keys := firstSeen (specs.map (fun s => s.section_id))
  let specs2 := zipLongestFlatten (keys.map (fun k => specs.filter (fun s => s.section_id == k)))
  zipLongestFlatten (specs2.map mkJobs)

/-! ## The Runner's job loop -/

/-- What the workload body of one executed job does, as observed by the
`while` loop in `Runner.run`: returns normally with the statuses the body
leaves behind (`ok` for a clean iteration, `wafail` for a `WAError` that
`_handle_errors` turned into a `FAILED` status), raises
`KeyboardInterrupt`, or lets a `DeviceNotRespondingError` escape (the
flag records whether the hard-reset recovery in the loop's handler
succeeds). -/
inductive Outcome where
  | ok
  | wafail
  | ki
  | dnr (recoverable : Bool)
deriving DecidableEq, Repr

/-- One `device.boot` attempt inside `_reboot_device`: success, a
`DeviceError` with the device still responsive (swallowed by
`_handle_errors`), or a failure after which `check_responsive` raises
`DeviceNotRespondingError`. -/
inductive BootRes where
  | ok
  | fail
  | dead (recoverable : Bool)
deriving DecidableEq, Repr

/-- The exceptions that can escape a job body into `Runner.run`'s
handlers. -/
inductive RunErr where
  | ki
  | deverr
  | dnr (recoverable : Bool)
deriving DecidableEq, Repr

/-- The configuration fields `Runner.run` and `_finalize_job` read. -/
structure RConfig where
  retry_on_status : List Status
  max_retries : Nat
  reboot_on_each_spec : Bool
  reboot_on_each_iteration : Bool
deriving Repr

/-- The joint state of the `Runner` and its `ExecutionContext` during the
job loop.  `iteration_results` is `run_result.iteration_results` (the
appended objects are the very results of the finalized jobs, so the entry
type is the finalized job record).  `hookAfterAbort` is a verification
ghost flag: it is raised if a workload body ever runs while
`context.aborted` is set.  `bootClock` and `bodyClock` index the external
oracles for `device.boot` attempts and workload-body outcomes. -/
structure RState where
  job_queue : List RJob
  completed_jobs : List RJob
  iteration_results : List RJob
  job_iteration_counts : List Nat
  current_job : Option RJob
  aborted : Bool
  hookAfterAbort : Bool
  bootClock : Nat
  bodyClock : Nat
  trace : List String
deriving Repr

/-- A fresh state around a pre-materialized job queue. -/
def init_state (queue : List RJob) : RState :=
  ⟨queue, [], [], [], none, false, false, 0, 0, []⟩

/-- Number of occurrences of a spec id, giving `job_iteration_counts[sid]`
when `job_iteration_counts` is kept as the list of recorded increments. -/
def countSid (sid : Nat) : List Nat → Nat
  | [] => 0
  | x :: xs => (if x == sid then 1 else 0) + countSid sid xs

/-- `ExecutionContext.next_job(job)`: records the job as current and
increments `job_iteration_counts[job.spec.id]` (directory and
iteration-artifact bookkeeping is elided). -/
def ctx_next_job (s : RState) (j : RJob) : RState :=
  { s with current_job := some j,
           job_iteration_counts := s.job_iteration_counts ++ [j.spec.sid] }

/-- `ExecutionContext.end_job()`: raises `aborted` when the finished job's
status is `ABORTED`, then clears `current_job`.  `finalStatus` is the
status of the job just finalized (aliased as `current_job.result.status`
in the source). -/
def ctx_end_job (s : RState) (finalStatus : Status) : RState :=
  { s with aborted := s.aborted || (finalStatus == Status.ABORTED),
           current_job := none }

/-- `Runner._finalize_job`: appends the current result to
`run_result.iteration_results`, pops the head of the queue, records its
iteration, inserts a fresh retry job `(spec, retry+1)` at index 0 when the
final status is in `retry_on_status` and `retry < max_retries`, appends
the popped job to `completed_jobs`, and calls `context.end_job`. -/
def finalize_job (cfg : RConfig) (s : RState) : RState :=
  match s.job_queue with
  | [] => s
  | j :: rest =>
      let j := { j with iteration := some (countSid j.spec.sid s.job_iteration_counts) }
      let queue :=
        if cfg.retry_on_status.contains j.status && decide (j.retry < cfg.max_retries)
        then RunnerJob j.spec (j.retry + 1) :: rest
        else rest
      let s2 := { s with job_queue := queue,
                         iteration_results := s.iteration_results ++ [j],
                         completed_jobs := s.completed_jobs ++ [j] }
      ctx_end_job s2 j.status

/-- The record `_finalize_job` appends to `iteration_results` and
`completed_jobs` when `j` heads the queue of `s`: the job with its
`iteration` field recorded from `context.current_iteration`. -/
def job_final (s : RState) (j : RJob) : RJob :=
  { j with iteration := some (countSid j.spec.sid s.job_iteration_counts) }

/-- `MAX_REBOOT_ATTEMPTS` from execution.py. -/
def MAX_REBOOT_ATTEMPTS : Nat := 3

/-- The `for reboot_attempts in xrange(MAX_REBOOT_ATTEMPTS)` loop of
`Runner._reboot_device`: each attempt boots the device under
`_handle_errors('Rebooting device')`; a swallowed `DeviceError` moves to
the next attempt; exhausting the attempts raises
`DeviceError('Could not reboot device; max reboot attempts exceeded.')`
from the `for`/`else` clause.  Returns the advanced boot clock. -/
def reboot_attempts (boots : Nat → BootRes) (clk : Nat) : Nat → Nat × Except RunErr Unit
  | 0 => (clk, .error .deverr)
  | n + 1 =>
      match boots clk with
      | .ok => (clk + 1, .ok ())
      | .fail => reboot_attempts boots (clk + 1) n
      | .dead r => (clk + 1, .error (.dnr r))

/-- `Runner._reboot_device` (the `BOOT` signal wrap and the final
`device.connect()` are elided; neither affects statuses). -/
def reboot_device (boots : Nat → BootRes) (clk : Nat) : Nat × Except RunErr Unit :=
  reboot_attempts boots clk MAX_REBOOT_ATTEMPTS

/-- `Runner.spec_changed` as read inside `_run_job`: true at the start of
the run, else compares the previous completed job's spec id with the
current one. -/
def spec_changed (completed : List RJob) (j : RJob) : Bool :=
  match completed.getLast? with
  | none => true
  | some p => p.spec.sid != j.spec.sid

/-- The outcome of `Runner._run_job` on one job: the job with its final
in-body status and ghost flags, the advanced oracle clocks, whether the
workload body ran, and the exception escaping the body, if any. -/
structure JobEffect where
  job : RJob
  bootClock : Nat
  bodyClock : Nat
  ranBody : Bool
  exc : Option RunErr
deriving Repr

/-- `Runner._run_job`: a disabled spec is marked `SKIPPED` and returns;
otherwise the device is rebooted when this is not the first job of the run
and the reboot policy asks for a reboot on this spec change or on every
iteration (`spec.flash` is not modelled); a reboot failure escapes before
any workload hook runs.  Otherwise the workload body runs and its outcome
determines the in-body status (`_run_workload_iteration` leaves `OK` on
success and `_handle_errors` leaves `FAILED` on a handled error) or the
escaping exception. -/
def run_job (cfg : RConfig) (enabled : Nat → Bool) (boots : Nat → BootRes)
    (outcomes : Nat → Outcome) (completedNonempty specChangedB : Bool)
    (bootClk bodyClk : Nat) (j : RJob) : JobEffect :=
  if !(enabled j.spec.sid) then
    ⟨{ j with status := .SKIPPED }, bootClk, bodyClk, false, none⟩
  else
    let needR := completedNonempty &&
      (cfg.reboot_on_each_spec && specChangedB || cfg.reboot_on_each_iteration)
    let br := if needR then reboot_device boots bootClk else (bootClk, .ok ())
    match br with
    | (clk, .error e) => ⟨j, clk, bodyClk, false, some e⟩
    | (clk, .ok _) =>
        let j := { j with executed := true }
        match outcomes bodyClk with
        | .ok => ⟨{ j with status := .OK }, clk, bodyClk + 1, true, none⟩
        | .wafail => ⟨{ j with status := .FAILED }, clk, bodyClk + 1, true, none⟩
        | .ki => ⟨j, clk, bodyClk + 1, true, some .ki⟩
        | .dnr r => ⟨j, clk, bodyClk + 1, true, some (.dnr r)⟩

/-- How one iteration of the `while self.job_queue` loop in `Runner.run`
exits: normally or with a swallowed, logged error (`cont`, carrying the
handled exception if any), by `KeyboardInterrupt` reaching the outer
handler (`interrupted`), or by an unrecoverable
`DeviceNotRespondingError` reaching the outer handler (`unresponsive`). -/
inductive LoopExit where
  | cont (handled : Option RunErr)
  | interrupted
  | unresponsive
deriving DecidableEq, Repr

/-- The status assignment of `Runner.run`'s `except` clauses: a
`KeyboardInterrupt` sets the current result `ABORTED`; every other caught
exception sets it `FAILED`; no exception leaves the body's statuses. -/
def run_one_status (e : Option RunErr) (jf : RJob) : RJob :=
  match e with
  | none => jf
  | some .ki => { jf with status := .ABORTED }
  | some _ => { jf with status := .FAILED }

/-- How `Runner.run`'s handlers dispose of the exception escaping the job
body: `KeyboardInterrupt` is re-raised to the outer handler (drain with
`ABORTED`); a recovered `DeviceNotRespondingError` and any other logged
exception (such as the `DeviceError` from reboot exhaustion) let the loop
continue; an unrecoverable `DeviceNotRespondingError` is re-raised to the
outer handler (drain with `SKIPPED`). -/
def run_one_exit (e : Option RunErr) : LoopExit :=
  match e with
  | none => .cont none
  | some .ki => .interrupted
  | some .deverr => .cont (some .deverr)
  | some (.dnr true) => .cont (some (.dnr true))
  | some (.dnr false) => .unresponsive

/-- One iteration of the `while self.job_queue` body in `Runner.run`:
`_init_job` (status `RUNNING`, `context.next_job`), `_run_job`, the
`except` clauses assigning `ABORTED` on `KeyboardInterrupt` and `FAILED`
on any other caught exception, and the `finally: self._finalize_job()`. -/
def run_one (cfg : RConfig) (enabled : Nat → Bool) (boots : Nat → BootRes)
    (outcomes : Nat → Outcome) (s : RState) : RState × LoopExit :=
  match s.job_queue with
  | [] => (s, .cont none)
  | j :: rest =>
      let j1 : RJob := { j with status := .RUNNING, abortedAtInit := s.aborted }
      let s1 := ctx_next_job { s with job_queue := j1 :: rest } j1
      let eff := run_job cfg enabled boots outcomes (!s1.completed_jobs.isEmpty)
                   (spec_changed s1.completed_jobs j1) s1.bootClock s1.bodyClock j1
      let s2 := { s1 with bootClock := eff.bootClock,
                          bodyClock := eff.bodyClock,
                          hookAfterAbort := s1.hookAfterAbort || (eff.ranBody && s1.aborted) }
      (finalize_job cfg { s2 with job_queue := run_one_status eff.exc eff.job :: rest },
       run_one_exit eff.exc)

/-- The `_run_job` effect of one loop iteration on the head job, spelled
out against the pre-iteration state (used to reason about `run_one`). -/
def step_eff (cfg : RConfig) (enabled : Nat → Bool) (boots : Nat → BootRes)
    (outcomes : Nat → Outcome) (s : RState) (j : RJob) : JobEffect :=
  run_job cfg enabled boots outcomes (!s.completed_jobs.isEmpty)
    (spec_changed s.completed_jobs { j with status := .RUNNING, abortedAtInit := s.aborted })
    s.bootClock s.bodyClock { j with status := .RUNNING, abortedAtInit := s.aborted }

/-- The state `run_one` hands to `_finalize_job` when `j` heads the
queue. -/
def step_state (cfg : RConfig) (enabled : Nat → Bool) (boots : Nat → BootRes)
    (outcomes : Nat → Outcome) (s : RState) (j : RJob) (rest : List RJob) : RState :=
  { s with
      job_queue := run_one_status (step_eff cfg enabled boots outcomes s j).exc
                     (step_eff cfg enabled boots outcomes s j).job :: rest,
      current_job := some { j with status := .RUNNING, abortedAtInit := s.aborted },
      job_iteration_counts := s.job_iteration_counts ++ [j.spec.sid],
      hookAfterAbort := s.hookAfterAbort ||
        ((step_eff cfg enabled boots outcomes s j).ranBody && s.aborted),
      bootClock := (step_eff cfg enabled boots outcomes s j).bootClock,
      bodyClock := (step_eff cfg enabled boots outcomes s j).bodyClock }

/-- One iteration of a drain loop (`while self.job_queue` in the outer
`except` handlers of `Runner.run`): `context.next_job(self.current_job)`,
assign the drain status to the head job, `_finalize_job`. -/
def drain_one (cfg : RConfig) (st : Status) (s : RState) : RState :=
  match s.job_queue with
  | [] => s
  | j :: rest =>
      let j1 : RJob := { j with abortedAtInit := s.aborted }
      let s1 := ctx_next_job { s with job_queue := j1 :: rest } j1
      finalize_job cfg { s1 with job_queue := { j1 with status := st } :: rest }

/-- The contribution of one queued job to the loop variant: at least 1,
and strictly decreasing when the job is replaced by its retry. -/
def contrib (M : Nat) (j : RJob) : Nat :=
  M + 1 - min j.retry M

/-- The loop variant: every `_finalize_job` strictly decreases it, which
bounds the number of loop iterations including retries. -/
def Phi (M : Nat) : List RJob → Nat
  | [] => 0
  | j :: q => contrib M j + Phi M q

/-- The drain loops, driven by fuel.  `Phi` fuel is always sufficient. -/
def drain_loopF (cfg : RConfig) (st : Status) : Nat → RState → RState
  | 0, s => s
  | n + 1, s =>
      match s.job_queue with
      | [] => s
      | _ :: _ => drain_loopF cfg st n (drain_one cfg st s)

/-- A drain loop run to completion. -/
def drain_loop (cfg : RConfig) (st : Status) (s : RState) : RState :=
  drain_loopF cfg st (Phi cfg.max_retries s.job_queue) s

/-- The `while self.job_queue` loop of `Runner.run`, driven by fuel:
a `KeyboardInterrupt` transfers to the `ABORTED` drain; an unrecoverable
`DeviceNotRespondingError` sets `context.aborted` and transfers to the
`SKIPPED` drain; otherwise the loop continues. -/
def run_loopF (cfg : RConfig) (enabled : Nat → Bool) (boots : Nat → BootRes)
    (outcomes : Nat → Outcome) : Nat → RState → RState
  | 0, s => s
  | n + 1, s =>
      match s.job_queue with
      | [] => s
      | _ :: _ =>
          match run_one cfg enabled boots outcomes s with
          | (s2, .cont _) => run_loopF cfg enabled boots outcomes n s2
          | (s2, .interrupted) => drain_loop cfg .ABORTED s2
          | (s2, .unresponsive) => drain_loop cfg .SKIPPED { s2 with aborted := true }

/-- The signal name sent last by `Runner.run`. -/
def RUN_END : String := "RUN_END"

/-- `Runner.run`: runs the job loop (with its drains) to completion, then
after `_finalize_run` and result processing emits `RUN_END`.  Only the
final `RUN_END` emission is recorded in the trace. -/
def runner_run (cfg : RConfig) (enabled : Nat → Bool) (boots : Nat → BootRes)
    (outcomes : Nat → Outcome) (s : RState) : RState :=
  let s1 := run_loopF cfg enabled boots outcomes (Phi cfg.max_retries s.job_queue) s
  { s1 with trace := s1.trace ++ [RUN_END] }

/-- Number of jobs of a given spec id in a list. -/
def countJobs (sid : Nat) : List RJob → Nat
  | [] => 0
  | j :: q => (if j.spec.sid == sid then 1 else 0) + countJobs sid q

/-- The per-spec retry potential: completed jobs of the spec plus the
retry headroom of its queued jobs.  Never increased by `_finalize_job`. -/
def PhiSid (sid M : Nat) : List RJob → Nat
  | [] => 0
  | j :: q => (if j.spec.sid == sid then contrib M j else 0) + PhiSid sid M q

/-- The per-spec potential of a runner state. -/
def psi (cfg : RConfig) (sid : Nat) (s : RState) : Nat :=
  countJobs sid s.completed_jobs + PhiSid sid cfg.max_retries s.job_queue

/-- The `ExecutionContext` accounting invariant:
`sum(job_iteration_counts.values())` equals
`len(run_result.iteration_results)` plus one if a job is current. -/
def ctx_inv (s : RState) : Prop :=
  s.job_iteration_counts.length =
    s.iteration_results.length + (if s.current_job.isSome then 1 else 0)

instance (s : RState) : Decidable (ctx_inv s) := by
  unfold ctx_inv; infer_instance

/-! ## Concrete instances used in the checks below -/

/-- Section X spec A of the `by_section` scenario: 2 iterations. -/
def specXA : WSpec := ⟨0, some 0, "A", 2⟩

/-- Section X spec B. -/
def specXB : WSpec := ⟨1, some 0, "B", 2⟩

/-- Section Y spec A. -/
def specYA : WSpec := ⟨2, some 1, "A", 2⟩

/-- Section Y spec B. -/
def specYB : WSpec := ⟨3, some 1, "B", 2⟩

/-- The spec list of the `by_section` scenario, in input order
X.A, X.B, Y.A, Y.B. -/
def demoSpecs : List WSpec := [specXA, specXB, specYA, specYB]

/-- A one-iteration spec without a section. -/
def wspec1 (n : Nat) : WSpec := ⟨n, none, "w", 1⟩

/-- A configuration with no retries and reboot on each iteration. -/
def cfgC6 : RConfig := ⟨[], 0, false, true⟩

/-- A configuration with no retries and no in-run reboots. -/
def cfg0 : RConfig := ⟨[], 0, false, false⟩

/-- A configuration retrying `FAILED` jobs up to 2 times. -/
def cfgRetry : RConfig := ⟨[Status.FAILED], 2, false, false⟩

/-- Every spec enabled. -/
def enabledAll : Nat → Bool := fun _ => true

/-- Every `device.boot` attempt fails with a responsive device. -/
def bootsFail : Nat → BootRes := fun _ => .fail

/-- Every `device.boot` attempt succeeds. -/
def bootsOk : Nat → BootRes := fun _ => .ok

/-- Every workload body completes cleanly. -/
def outcomesOk : Nat → Outcome := fun _ => .ok

/-- Every workload body raises `KeyboardInterrupt`. -/
def outcomesKI : Nat → Outcome := fun _ => .ki

/-- Every workload body fails with a handled `WAError`. -/
def outcomesW : Nat → Outcome := fun _ => .wafail

/-- Three fresh one-iteration jobs on distinct specs. -/
def qDemo3 : List RJob := [RunnerJob (wspec1 0) 0, RunnerJob (wspec1 1) 0, RunnerJob (wspec1 2) 0]

/-- Two fresh one-iteration jobs on distinct specs. -/
def qDemo2 : List RJob := [RunnerJob (wspec1 0) 0, RunnerJob (wspec1 1) 0]

/-- The initial state for the interrupt scenario. -/
def sKI : RState := init_state qDemo2

/-- A mid-run state: one completed job, one fresh queued job; used to
exercise the reboot-on-each-iteration path of `_run_job`. -/
def sMid : RState :=
  { init_state [RunnerJob (wspec1 1) 0] with
      completed_jobs := [RunnerJob (wspec1 0) 0],
      iteration_results := [RunnerJob (wspec1 0) 0],
      job_iteration_counts := [0] }

/-- A filesystem with no files. -/
def fsNone : FS := ⟨fun _ => false⟩

/-- A filesystem holding exactly `/elsewhere/rel.txt`. -/
def fsOne : FS := ⟨fun p => p == "/elsewhere/rel.txt"⟩

/-- An artifact context with an active job. -/
def ctxJob : ArtCtx := ⟨true, "/out", "/out/it1", [], some []⟩

/-- An artifact context with no active job. -/
def ctxNoJob : ArtCtx := ⟨false, "/out", "/out", [], none⟩

/-! ## Theorems -/

/-- Auxiliary: the linear scan of `get_artifact` agrees with `List.find?`
on the name predicate. -/
theorem scanByName_eq_find (name : String) (l : List Artifact) :
    scanByName name l = l.find? (fun a => a.name == name) := by
  induction l with
  | nil => rfl
  | cons a rest ih =>
      by_cases h : a.name == name
      · simp [scanByName, List.find?, h]
      · simp only [Bool.not_eq_true] at h
        simp [scanByName, List.find?, h, ih]

/-- C10: `get_artifact(name)` returns the first artifact of that name in
`iteration_artifacts` if one exists, else the first in `run_artifacts`,
else `None`; it is a total read-only function of the two lists (hence it
never raises and never mutates them). -/
theorem get_artifact_lookup_spec (ctx : ArtCtx) (name : String) :
    get_artifact ctx name =
      match (ctx.iteration_artifacts.getD []).find? (fun a => a.name == name) with
      | some a => some a
      | none => ctx.run_artifacts.find? (fun a => a.name == name) := by
  unfold get_artifact
  cases hit : ctx.iteration_artifacts with
  | none => simp [scanByName_eq_find]
  | some l =>
      cases l with
      | nil => simp [scanByName_eq_find]
      | cons a rest => simp [scanByName_eq_find]

/-- C9 (divergence witness): with a job active, `add_artifact` routes to
`iteration_artifacts` but the appended artifact carries level
`Artifact.RUN`; with no job active it routes to `run_artifacts` with
level `Artifact.ITERATION` — the two scope constants are passed swapped
relative to the lists they land in. -/
theorem add_artifact_swapped_scope_levels :
    add_artifact fsNone "/cwd" ctxJob "trace" "/out/it1/trace.txt" "data" =
      .ok ⟨true, "/out", "/out/it1", [],
           some [⟨"trace", "/out/it1/trace.txt", "data", Scope.RUN⟩]⟩ ∧
    add_artifact fsNone "/cwd" ctxNoJob "runlog" "/out/run.log" "log" =
      .ok ⟨false, "/out", "/out",
           [⟨"runlog", "/out/run.log", "log", Scope.ITERATION⟩], none⟩ :=
  ⟨rfl, rfl⟩

/-- C8 (counterexample): the path `/out_x/secret` string-prefix-matches
the output directory `/out` although it is neither rooted under it nor an
existing file (the filesystem is empty), yet `add_run_artifact` registers
it without raising — so it is not the case that registration raises for
every path whose resolved file does not exist. -/
theorem artifact_path_counterexample :
    fsNone.isfile "/out_x/secret" = false ∧
    add_run_artifact fsNone "/cwd" ctxNoJob "odd" "/out_x/secret" "data" =
      .ok ⟨false, "/out", "/out",
           [⟨"odd", "/out_x/secret", "data", Scope.ITERATION⟩], none⟩ :=
  ⟨rfl, rfl⟩

/-- C8 (amended): the pre-registration check of `add_run_artifact` /
`add_iteration_artifact`: a path that starts with the output directory
string is registered with no existence check (which also admits absent
files and sibling paths sharing the prefix); any other path is joined to
the output directory and must name an existing file there, else the call
raises and the artifact is not added. -/
theorem artifact_path_check_amended (fs : FS) (cwd aname path kind : String)
    (ctx : ArtCtx) :
    (pyStartswith path ctx.run_output_directory = true →
       add_run_artifact fs cwd ctx aname path kind =
         .ok { ctx with run_artifacts :=
                 ctx.run_artifacts ++ [⟨aname, osAbspath cwd path, kind, Scope.ITERATION⟩] }) ∧
    (pyStartswith path ctx.run_output_directory = false →
       fs.isfile (osJoin (osAbspath cwd ctx.run_output_directory) path) = false →
       add_run_artifact fs cwd ctx aname path kind =
         .error ("Cannot add artifact because " ++
                 osJoin (osAbspath cwd ctx.run_output_directory) path ++ " does not exist.")) ∧
    (pyStartswith path ctx.run_output_directory = false →
       fs.isfile (osJoin (osAbspath cwd ctx.run_output_directory) path) = true →
       add_run_artifact fs cwd ctx aname path kind =
         .ok { ctx with run_artifacts :=
                 ctx.run_artifacts ++
                   [⟨aname, osJoin (osAbspath cwd ctx.run_output_directory) path, kind,
                     Scope.ITERATION⟩] }) ∧
    (pyStartswith path ctx.output_directory = false →
       fs.isfile (osJoin (osAbspath cwd ctx.output_directory) path) = false →
       add_iteration_artifact fs cwd ctx aname path kind =
         .error ("Cannot add artifact because " ++
                 osJoin (osAbspath cwd ctx.output_directory) path ++ " does not exist.")) := by
  refine ⟨fun h1 => ?_, fun h1 h2 => ?_, fun h1 h2 => ?_, fun h1 h2 => ?_⟩
  · simp [add_run_artifact, check_artifact_path, h1]
  · simp [add_run_artifact, check_artifact_path, h1, h2]
  · simp [add_run_artifact, check_artifact_path, h1, h2]
  · simp [add_iteration_artifact, check_artifact_path, h1, h2]

/-- Witness for the amended C8 statement at concrete inputs. -/
theorem artifact_path_check_amended_witness :
    (pyStartswith "/out/x" ctxNoJob.run_output_directory = true ∧
      add_run_artifact fsNone "/cwd" ctxNoJob "a" "/out/x" "d" =
        .ok { ctxNoJob with run_artifacts :=
                ctxNoJob.run_artifacts ++ [⟨"a", osAbspath "/cwd" "/out/x", "d", Scope.ITERATION⟩] }) ∧
    (pyStartswith "/elsewhere/rel.txt" ctxNoJob.run_output_directory = false ∧
      fsOne.isfile (osJoin (osAbspath "/cwd" ctxNoJob.run_output_directory) "/elsewhere/rel.txt") = true ∧
      add_run_artifact fsOne "/cwd" ctxNoJob "b" "/elsewhere/rel.txt" "d" =
        .ok { ctxNoJob with run_artifacts :=
                ctxNoJob.run_artifacts ++
                  [⟨"b", osJoin (osAbspath "/cwd" ctxNoJob.run_output_directory) "/elsewhere/rel.txt",
                    "d", Scope.ITERATION⟩] }) ∧
    (pyStartswith "absent.txt" ctxNoJob.run_output_directory = false ∧
      fsNone.isfile (osJoin (osAbspath "/cwd" ctxNoJob.run_output_directory) "absent.txt") = false ∧
      add_run_artifact fsNone "/cwd" ctxNoJob "c" "absent.txt" "d" =
        .error ("Cannot add artifact because " ++
                osJoin (osAbspath "/cwd" ctxNoJob.run_output_directory) "absent.txt" ++
                " does not exist.")) :=
  ⟨⟨by decide, (artifact_path_check_amended fsNone "/cwd" "a" "/out/x" "d" ctxNoJob).1 (by decide)⟩,
   ⟨by decide, by decide,
    (artifact_path_check_amended fsOne "/cwd" "b" "/elsewhere/rel.txt" "d" ctxNoJob).2.2.1
      (by decide) (by decide)⟩,
   ⟨by decide, by decide,
    (artifact_path_check_amended fsNone "/cwd" "c" "absent.txt" "d" ctxNoJob).2.1
      (by decide) (by decide)⟩⟩

/-- C1: the `_signal_wrap` contract: `BEFORE` is emitted first; a body
that returns normally is followed by `SUCCESSFUL` then `AFTER`; a body
that raises skips `SUCCESSFUL` but still gets `AFTER` and the exception
propagates; hence `SUCCESSFUL` appears in the wrapped trace iff the body
completed normally. -/
theorem signal_wrap_contract (name : String) (body : SigRes)
    (hns : Sig.SUCCESSFUL name ∉ body.1) :
    (body.2 = .ok () →
       signal_wrap name body =
         (Sig.BEFORE name :: (body.1 ++ [Sig.SUCCESSFUL name, Sig.AFTER name]), .ok ())) ∧
    (∀ e, body.2 = .error e →
       signal_wrap name body =
         (Sig.BEFORE name :: (body.1 ++ [Sig.AFTER name]), .error e)) ∧
    (Sig.SUCCESSFUL name ∈ (signal_wrap name body).1 ↔ body.2 = .ok ()) := by
  obtain ⟨t, r⟩ := body
  simp only at hns
  cases r with
  | ok u =>
      cases u
      refine ⟨fun _ => ?_, fun e he => by simp at he, ?_⟩
      · simp [signal_wrap, sigSeq, tryFinallyS, emit]
      · simp [signal_wrap, sigSeq, tryFinallyS, emit]
  | error e =>
      refine ⟨fun h => by simp at h, fun e2 he => ?_, ?_⟩
      · simp only [Except.error.injEq] at he
        subst he
        simp [signal_wrap, sigSeq, tryFinallyS, emit]
      · simp [signal_wrap, sigSeq, tryFinallyS, emit, hns]

/-- Witness for C1 at a concrete body. -/
theorem signal_wrap_contract_witness :
    (Sig.SUCCESSFUL "BOOT" ∉ ([Sig.BEFORE "X"] : List Sig)) ∧
    ((([Sig.BEFORE "X"], Except.ok ()) : SigRes).2 = .ok () →
       signal_wrap "BOOT" ([Sig.BEFORE "X"], Except.ok ()) =
         (Sig.BEFORE "BOOT" :: ([Sig.BEFORE "X"] ++ [Sig.SUCCESSFUL "BOOT", Sig.AFTER "BOOT"]),
          .ok ())) ∧
    (∀ e, (([Sig.BEFORE "X"], Except.ok ()) : SigRes).2 = .error e →
       signal_wrap "BOOT" ([Sig.BEFORE "X"], Except.ok ()) =
         (Sig.BEFORE "BOOT" :: ([Sig.BEFORE "X"] ++ [Sig.AFTER "BOOT"]), .error e)) ∧
    (Sig.SUCCESSFUL "BOOT" ∈ (signal_wrap "BOOT" ([Sig.BEFORE "X"], Except.ok ())).1 ↔
       (([Sig.BEFORE "X"], Except.ok ()) : SigRes).2 = .ok ()) :=
  ⟨by decide, signal_wrap_contract "BOOT" ([Sig.BEFORE "X"], Except.ok ()) (by decide)⟩

/-- C2 (counterexample): for sections `[X, Y]` with specs `A`, `B` in each
(ids 0,1,2,3 in input order X.A, X.B, Y.A, Y.B, two iterations each), the
`by_section` queue is `X.A, X.B, Y.A, Y.B, X.A, X.B, Y.A, Y.B` — not the
claimed `X.A, Y.A, X.B, Y.B, X.A, Y.A, X.B, Y.B`. -/
theorem by_section_claim_counterexample :
    (bySection_init_queue demoSpecs).map (fun j => j.spec.sid) = [0, 1, 2, 3, 0, 1, 2, 3] ∧
    (bySection_init_queue demoSpecs).map (fun j => j.spec.sid) ≠ [0, 2, 1, 3, 0, 2, 1, 3] := by
  constructor
  · rfl
  · decide

/-- C2 (amended): `BySectionRunner.init_queue` never consults
`section_id`: it round-robins jobs across the specs in input order
(first iteration of every spec, then second, ...), giving
`X.A₁, X.B₁, Y.A₁, Y.B₁, X.A₂, X.B₂, Y.A₂, Y.B₂` for the scenario; the
claimed section-grouped round-robin order is what
`ByIterationRunner.init_queue` produces. -/
theorem by_section_actual_order :
    (bySection_init_queue demoSpecs).map (fun j => j.spec.sid) = [0, 1, 2, 3, 0, 1, 2, 3] ∧
    (byIteration_init_queue demoSpecs).map (fun j => j.spec.sid) = [0, 2, 1, 3, 0, 2, 1, 3] ∧
    bySection_init_queue demoSpecs = zipLongestFlatten (demoSpecs.map mkJobs) :=
  ⟨rfl, rfl, rfl⟩

/-! ### Lemmas on the loop variant and on `_finalize_job` -/

/-- Auxiliary: each queued job contributes at least 1 to the variant. -/
theorem contrib_pos (M : Nat) (j : RJob) : 1 ≤ contrib M j := by
  have h := Nat.min_le_right j.retry M
  unfold contrib
  omega

/-- Auxiliary: the contribution depends only on the retry count. -/
theorem contrib_congr (M : Nat) (x y : RJob) (h : x.retry = y.retry) :
    contrib M x = contrib M y := by
  unfold contrib
  rw [h]

/-- Auxiliary: unfolding `Phi` on a cons cell. -/
theorem Phi_cons (M : Nat) (j : RJob) (q : List RJob) :
    Phi M (j :: q) = contrib M j + Phi M q := rfl

/-- Auxiliary: the variant of a non-empty queue is positive. -/
theorem Phi_pos (M : Nat) (j : RJob) (q : List RJob) : 1 ≤ Phi M (j :: q) := by
  have := contrib_pos M j
  rw [Phi_cons]
  omega

/-- Auxiliary: `countJobs` distributes over append. -/
theorem countJobs_append (sid : Nat) (l1 l2 : List RJob) :
    countJobs sid (l1 ++ l2) = countJobs sid l1 + countJobs sid l2 := by
  induction l1 with
  | nil =>
      show countJobs sid l2 = 0 + countJobs sid l2
      omega
  | cons x xs ih =>
      show (if x.spec.sid == sid then 1 else 0) + countJobs sid (xs ++ l2) =
        ((if x.spec.sid == sid then 1 else 0) + countJobs sid xs) + countJobs sid l2
      rw [ih]
      omega

/-- Auxiliary: unfolding `PhiSid` on a cons cell. -/
theorem PhiSid_cons (sid M : Nat) (j : RJob) (q : List RJob) :
    PhiSid sid M (j :: q) =
      (if j.spec.sid == sid then contrib M j else 0) + PhiSid sid M q := rfl

/-- Auxiliary: what `_finalize_job` does to each state component when the
queue is non-empty: the head is recorded in `completed_jobs` and
`iteration_results`, `current_job` is cleared, `aborted` is raised iff the
head finished `ABORTED`, and the queue loses its head, gaining a fresh
retry at index 0 exactly when the retry policy fires. -/
theorem finalize_job_spec (cfg : RConfig) (s : RState) (j : RJob) (rest : List RJob)
    (h : s.job_queue = j :: rest) :
    (finalize_job cfg s).completed_jobs = s.completed_jobs ++ [job_final s j] ∧
    (finalize_job cfg s).iteration_results = s.iteration_results ++ [job_final s j] ∧
    (finalize_job cfg s).current_job = none ∧
    (finalize_job cfg s).aborted = (s.aborted || (j.status == Status.ABORTED)) ∧
    (finalize_job cfg s).hookAfterAbort = s.hookAfterAbort ∧
    (finalize_job cfg s).job_iteration_counts = s.job_iteration_counts ∧
    (finalize_job cfg s).trace = s.trace ∧
    ((finalize_job cfg s).job_queue = rest ∨
      ((finalize_job cfg s).job_queue = RunnerJob j.spec (j.retry + 1) :: rest ∧
        j.retry < cfg.max_retries)) := by
  unfold finalize_job ctx_end_job job_final
  rw [h]
  refine ⟨rfl, rfl, rfl, rfl, rfl, rfl, rfl, ?_⟩
  dsimp only
  split
  next hc =>
    simp only [Bool.and_eq_true, decide_eq_true_eq] at hc
    exact Or.inr ⟨rfl, hc.2⟩
  next => exact Or.inl rfl

/-- Auxiliary: `_finalize_job` strictly decreases the loop variant. -/
theorem finalize_phi_lt (cfg : RConfig) (s : RState) (j : RJob) (rest : List RJob)
    (h : s.job_queue = j :: rest) :
    Phi cfg.max_retries (finalize_job cfg s).job_queue < Phi cfg.max_retries s.job_queue := by
  rcases (finalize_job_spec cfg s j rest h).2.2.2.2.2.2.2 with hq | ⟨hq, hr⟩
  · rw [hq, h, Phi_cons]
    have := contrib_pos cfg.max_retries j
    omega
  · rw [hq, h, Phi_cons, Phi_cons]
    have h1 : contrib cfg.max_retries (RunnerJob j.spec (j.retry + 1)) =
        cfg.max_retries + 1 - min (j.retry + 1) cfg.max_retries := rfl
    have h2 : contrib cfg.max_retries j =
        cfg.max_retries + 1 - min j.retry cfg.max_retries := rfl
    have hm1 : min (j.retry + 1) cfg.max_retries = j.retry + 1 := Nat.min_eq_left (by omega)
    have hm2 : min j.retry cfg.max_retries = j.retry := Nat.min_eq_left (by omega)
    omega

/-- Auxiliary: `_finalize_job` never increases the per-spec potential. -/
theorem psi_finalize_le (cfg : RConfig) (sid : Nat) (s : RState) :
    psi cfg sid (finalize_job cfg s) ≤ psi cfg sid s := by
  cases hq : s.job_queue with
  | nil =>
      unfold finalize_job
      rw [hq]
  | cons j rest =>
      obtain ⟨hc, _, _, _, _, _, _, hqd⟩ := finalize_job_spec cfg s j rest hq
      unfold psi
      rw [hc, countJobs_append, hq]
      have hone : countJobs sid [job_final s j] = (if (j.spec.sid == sid) = true then 1 else 0) := by
        show (if (j.spec.sid == sid) = true then 1 else 0) + 0 = _
        omega
      rcases hqd with hq2 | ⟨hq2, hr⟩
      · rw [hq2, hone, PhiSid_cons]
        have := contrib_pos cfg.max_retries j
        by_cases hs : (j.spec.sid == sid) = true
        · rw [if_pos hs, if_pos hs]
          omega
        · rw [if_neg hs, if_neg hs]
          omega
      · rw [hq2, hone, PhiSid_cons, PhiSid_cons]
        have hrjspec : (RunnerJob j.spec (j.retry + 1)).spec.sid = j.spec.sid := rfl
        rw [hrjspec]
        have h1 : contrib cfg.max_retries (RunnerJob j.spec (j.retry + 1)) =
            cfg.max_retries + 1 - min (j.retry + 1) cfg.max_retries := rfl
        have h2 : contrib cfg.max_retries j =
            cfg.max_retries + 1 - min j.retry cfg.max_retries := rfl
        have hm1 : min (j.retry + 1) cfg.max_retries = j.retry + 1 := Nat.min_eq_left (by omega)
        have hm2 : min j.retry cfg.max_retries = j.retry := Nat.min_eq_left (by omega)
        by_cases hs : (j.spec.sid == sid) = true
        · rw [if_pos hs, if_pos hs, if_pos hs]
          omega
        · rw [if_neg hs, if_neg hs, if_neg hs]
          omega

/-! ### Lemmas on `_run_job` and one loop iteration -/

/-- Auxiliary: `_run_job` never changes the job's identity fields, leaves
only `SKIPPED`/`OK`/`FAILED` when no exception escapes, and leaves the job
untouched when the escaping exception is the reboot-exhaustion
`DeviceError` (the body never ran). -/
theorem run_job_spec (cfg : RConfig) (E : Nat → Bool) (B : Nat → BootRes) (O : Nat → Outcome)
    (cne scb : Bool) (bc dc : Nat) (j : RJob) :
    (run_job cfg E B O cne scb bc dc j).job.spec = j.spec ∧
    (run_job cfg E B O cne scb bc dc j).job.retry = j.retry ∧
    (run_job cfg E B O cne scb bc dc j).job.abortedAtInit = j.abortedAtInit ∧
    ((run_job cfg E B O cne scb bc dc j).exc = none →
       (run_job cfg E B O cne scb bc dc j).job.status = Status.SKIPPED ∨
       (run_job cfg E B O cne scb bc dc j).job.status = Status.OK ∨
       (run_job cfg E B O cne scb bc dc j).job.status = Status.FAILED) ∧
    ((run_job cfg E B O cne scb bc dc j).exc = some .deverr →
       (run_job cfg E B O cne scb bc dc j).job.executed = j.executed) := by
  unfold run_job
  split
  · exact ⟨rfl, rfl, rfl, fun _ => Or.inl rfl, fun h => by simp at h⟩
  · dsimp only
    split
    · exact ⟨rfl, rfl, rfl, fun h => by simp at h, fun _ => rfl⟩
    · split
      · exact ⟨rfl, rfl, rfl, fun _ => Or.inr (Or.inl rfl), fun h => by simp at h⟩
      · exact ⟨rfl, rfl, rfl, fun _ => Or.inr (Or.inr rfl), fun h => by simp at h⟩
      · exact ⟨rfl, rfl, rfl, fun h => by simp at h, fun h => by simp at h⟩
      · exact ⟨rfl, rfl, rfl, fun h => by simp at h, fun h => by simp at h⟩

/-- Auxiliary: `run_one_status` changes only the status field. -/
theorem run_one_status_fields (e : Option RunErr) (jf : RJob) :
    (run_one_status e jf).spec = jf.spec ∧
    (run_one_status e jf).retry = jf.retry ∧
    (run_one_status e jf).executed = jf.executed ∧
    (run_one_status e jf).abortedAtInit = jf.abortedAtInit := by
  rcases e with _ | er
  · exact ⟨rfl, rfl, rfl, rfl⟩
  · rcases er with _ | _ | r
    · exact ⟨rfl, rfl, rfl, rfl⟩
    · exact ⟨rfl, rfl, rfl, rfl⟩
    · exact ⟨rfl, rfl, rfl, rfl⟩

/-- Auxiliary: the status produced by the `except` clauses matches how the
exception is dispatched: `interrupted` goes with `ABORTED`, every `cont`
exit leaves a non-`ABORTED` status (`FAILED` when an exception was
handled), and `unresponsive` goes with `FAILED`. -/
theorem run_one_exit_status (e : Option RunErr) (jf : RJob)
    (hn : e = none →
      jf.status = Status.SKIPPED ∨ jf.status = Status.OK ∨ jf.status = Status.FAILED) :
    (run_one_exit e = .interrupted → (run_one_status e jf).status = .ABORTED) ∧
    (∀ e2, run_one_exit e = .cont e2 → ¬((run_one_status e jf).status = .ABORTED)) ∧
    (run_one_exit e = .unresponsive → (run_one_status e jf).status = .FAILED) ∧
    (∀ e2, run_one_exit e = .cont (some e2) → (run_one_status e jf).status = .FAILED) ∧
    (run_one_exit e = .cont (some .deverr) → e = some .deverr) := by
  rcases e with _ | er
  · refine ⟨fun h => by simp [run_one_exit] at h, fun e2 _ => ?_, fun h => by simp [run_one_exit] at h,
      fun e2 h => by simp [run_one_exit] at h, fun h => by simp [run_one_exit] at h⟩
    rcases hn rfl with h1 | h1 | h1 <;> simp [run_one_status, h1]
  · rcases er with _ | _ | r
    · exact ⟨fun _ => rfl, fun e2 h => by simp [run_one_exit] at h,
        fun h => by simp [run_one_exit] at h, fun e2 h => by simp [run_one_exit] at h,
        fun h => by simp [run_one_exit] at h⟩
    · exact ⟨fun h => by simp [run_one_exit] at h, fun e2 _ => by simp [run_one_status],
        fun h => by simp [run_one_exit] at h, fun e2 _ => rfl, fun _ => rfl⟩
    · cases r
      · exact ⟨fun h => by simp [run_one_exit] at h, fun e2 h => by simp [run_one_exit] at h,
          fun _ => rfl, fun e2 h => by simp [run_one_exit] at h,
          fun h => by simp [run_one_exit] at h⟩
      · exact ⟨fun h => by simp [run_one_exit] at h, fun e2 _ => by simp [run_one_status],
          fun h => by simp [run_one_exit] at h, fun e2 _ => rfl,
          fun h => by simp [run_one_exit] at h⟩

/-- Auxiliary: one drain iteration finalizes the head with the drain
status: the head is appended to `completed_jobs` and `iteration_results`
carrying the drain status, its `executed` flag untouched and the
`aborted` flag at admission recorded; the queue loses the head, gaining
at most a fresh (never-executed) retry. -/
theorem drain_one_spec (cfg : RConfig) (st : Status) (s : RState) (j : RJob)
    (rest : List RJob) (hq : s.job_queue = j :: rest) :
    ∃ dj : RJob,
      (drain_one cfg st s).completed_jobs = s.completed_jobs ++ [dj] ∧
      (drain_one cfg st s).iteration_results = s.iteration_results ++ [dj] ∧
      dj.status = st ∧
      dj.executed = j.executed ∧
      dj.abortedAtInit = s.aborted ∧
      (drain_one cfg st s).aborted = (s.aborted || (st == Status.ABORTED)) ∧
      (drain_one cfg st s).hookAfterAbort = s.hookAfterAbort ∧
      (drain_one cfg st s).current_job = none ∧
      (drain_one cfg st s).job_iteration_counts = s.job_iteration_counts ++ [j.spec.sid] ∧
      ((drain_one cfg st s).job_queue = rest ∨
        ∃ rj, (drain_one cfg st s).job_queue = rj :: rest ∧ rj.executed = false) ∧
      Phi cfg.max_retries (drain_one cfg st s).job_queue < Phi cfg.max_retries s.job_queue ∧
      (∀ sid2, psi cfg sid2 (drain_one cfg st s) ≤ psi cfg sid2 s) := by
  have hd : drain_one cfg st s = finalize_job cfg
      { s with job_queue := { j with abortedAtInit := s.aborted, status := st } :: rest,
               current_job := some { j with abortedAtInit := s.aborted },
               job_iteration_counts := s.job_iteration_counts ++ [j.spec.sid] } := by
    unfold drain_one ctx_next_job
    rw [hq]
  obtain ⟨h1, h2, h3, h4, h5, h6, h7, h8⟩ := finalize_job_spec cfg
      { s with job_queue := { j with abortedAtInit := s.aborted, status := st } :: rest,
               current_job := some { j with abortedAtInit := s.aborted },
               job_iteration_counts := s.job_iteration_counts ++ [j.spec.sid] }
      ({ j with abortedAtInit := s.aborted, status := st }) rest rfl
  refine ⟨job_final
      { s with job_queue := { j with abortedAtInit := s.aborted, status := st } :: rest,
               current_job := some { j with abortedAtInit := s.aborted },
               job_iteration_counts := s.job_iteration_counts ++ [j.spec.sid] }
      ({ j with abortedAtInit := s.aborted, status := st }),
    ?_, ?_, rfl, rfl, rfl, ?_, ?_, ?_, ?_, ?_, ?_, ?_⟩
  · rw [hd]; exact h1
  · rw [hd]; exact h2
  · rw [hd]; exact h4
  · rw [hd]; exact h5
  · rw [hd]; exact h3
  · rw [hd]; exact h6
  · rw [hd]
    rcases h8 with h8a | ⟨h8b, _⟩
    · exact Or.inl h8a
    · exact Or.inr ⟨_, h8b, rfl⟩
  · rw [hd, hq]
    exact finalize_phi_lt cfg _ _ rest rfl
  · intro sid2
    rw [hd]
    have hp := psi_finalize_le cfg sid2
      { s with job_queue := { j with abortedAtInit := s.aborted, status := st } :: rest,
               current_job := some { j with abortedAtInit := s.aborted },
               job_iteration_counts := s.job_iteration_counts ++ [j.spec.sid] }
    have hpsame : psi cfg sid2
        { s with job_queue := { j with abortedAtInit := s.aborted, status := st } :: rest,
                 current_job := some { j with abortedAtInit := s.aborted },
                 job_iteration_counts := s.job_iteration_counts ++ [j.spec.sid] } =
        psi cfg sid2 s := by
      unfold psi
      rw [hq]
      rfl
    rw [hpsame] at hp
    exact hp

/-- Auxiliary: everything one iteration of the `Runner.run` loop does when
`j` heads the queue: exactly one job record `jj` for `j` is appended to
`completed_jobs` and `iteration_results`; the iteration count of `j`'s
spec is bumped; `current_job` ends cleared; `aborted` is raised iff `jj`
finished `ABORTED`, which happens iff the exit is `interrupted`
(`KeyboardInterrupt`); every `cont` exit leaves a non-`ABORTED` status
(`FAILED` when an exception was handled); a `cont (some deverr)` exit
(reboot exhaustion) leaves the body unexecuted; the queue loses its head
up to a fresh retry; the variant strictly decreases and the per-spec
potential never increases. -/
theorem run_one_spec (cfg : RConfig) (E : Nat → Bool) (B : Nat → BootRes) (O : Nat → Outcome)
    (s : RState) (j : RJob) (rest : List RJob) (hq : s.job_queue = j :: rest) :
    ∃ jj : RJob,
      (run_one cfg E B O s).1.completed_jobs = s.completed_jobs ++ [jj] ∧
      (run_one cfg E B O s).1.iteration_results = s.iteration_results ++ [jj] ∧
      (run_one cfg E B O s).1.job_iteration_counts = s.job_iteration_counts ++ [j.spec.sid] ∧
      (run_one cfg E B O s).1.current_job = none ∧
      (run_one cfg E B O s).1.trace = s.trace ∧
      (run_one cfg E B O s).1.aborted = (s.aborted || (jj.status == Status.ABORTED)) ∧
      (s.aborted = false → (run_one cfg E B O s).1.hookAfterAbort = s.hookAfterAbort) ∧
      jj.spec = j.spec ∧
      jj.retry = j.retry ∧
      jj.abortedAtInit = s.aborted ∧
      ((run_one cfg E B O s).2 = .interrupted → jj.status = Status.ABORTED) ∧
      (∀ e2, (run_one cfg E B O s).2 = .cont e2 → ¬(jj.status = Status.ABORTED)) ∧
      ((run_one cfg E B O s).2 = .unresponsive → jj.status = Status.FAILED) ∧
      (∀ e2, (run_one cfg E B O s).2 = .cont (some e2) → jj.status = Status.FAILED) ∧
      ((run_one cfg E B O s).2 = .cont (some .deverr) → jj.executed = j.executed) ∧
      ((run_one cfg E B O s).1.job_queue = rest ∨
        ((run_one cfg E B O s).1.job_queue = RunnerJob j.spec (j.retry + 1) :: rest ∧
          j.retry < cfg.max_retries)) ∧
      Phi cfg.max_retries (run_one cfg E B O s).1.job_queue <
        Phi cfg.max_retries s.job_queue ∧
      (∀ sid2, psi cfg sid2 (run_one cfg E B O s).1 ≤ psi cfg sid2 s) := by
  have hd : run_one cfg E B O s =
      (finalize_job cfg (step_state cfg E B O s j rest),
       run_one_exit (step_eff cfg E B O s j).exc) := by
    unfold run_one ctx_next_job step_state step_eff
    rw [hq]
  obtain ⟨hsp, hrt, hai, hnone, hdevx⟩ := run_job_spec cfg E B O (!s.completed_jobs.isEmpty)
    (spec_changed s.completed_jobs { j with status := .RUNNING, abortedAtInit := s.aborted })
    s.bootClock s.bodyClock { j with status := .RUNNING, abortedAtInit := s.aborted }
  have heffspec : (step_eff cfg E B O s j).job.spec = j.spec := hsp
  have heffretry : (step_eff cfg E B O s j).job.retry = j.retry := hrt
  have heffai : (step_eff cfg E B O s j).job.abortedAtInit = s.aborted := hai
  obtain ⟨hhspec, hhretry, hhexec, hhai⟩ :=
    run_one_status_fields (step_eff cfg E B O s j).exc (step_eff cfg E B O s j).job
  obtain ⟨hex1, hex2, hex3, hex4, hex5⟩ :=
    run_one_exit_status (step_eff cfg E B O s j).exc (step_eff cfg E B O s j).job hnone
  obtain ⟨hf1, hf2, hf3, hf4, hf5, hf6, hf7, hf8⟩ :=
    finalize_job_spec cfg (step_state cfg E B O s j rest)
      (run_one_status (step_eff cfg E B O s j).exc (step_eff cfg E B O s j).job) rest rfl
  refine ⟨job_final (step_state cfg E B O s j rest)
      (run_one_status (step_eff cfg E B O s j).exc (step_eff cfg E B O s j).job),
    ?_, ?_, ?_, ?_, ?_, ?_, ?_, ?_, ?_, ?_, ?_, ?_, ?_, ?_, ?_, ?_, ?_, ?_⟩
  · rw [hd]; exact hf1
  · rw [hd]; exact hf2
  · rw [hd]; exact hf6
  · rw [hd]; exact hf3
  · rw [hd]; exact hf7
  · rw [hd]; exact hf4
  · intro hab
    rw [hd]
    have hk : (finalize_job cfg (step_state cfg E B O s j rest)).hookAfterAbort =
        (s.hookAfterAbort || ((step_eff cfg E B O s j).ranBody && s.aborted)) := hf5
    rw [hk, hab]
    simp
  · exact hhspec.trans heffspec
  · exact hhretry.trans heffretry
  · exact hhai.trans heffai
  · intro h
    rw [hd] at h
    exact hex1 h
  · intro e2 h
    rw [hd] at h
    exact hex2 e2 h
  · intro h
    rw [hd] at h
    exact hex3 h
  · intro e2 h
    rw [hd] at h
    exact hex4 e2 h
  · intro h
    rw [hd] at h
    exact hhexec.trans (hdevx (hex5 h))
  · rw [hd]
    rcases hf8 with h8a | ⟨h8b, h8c⟩
    · exact Or.inl h8a
    · refine Or.inr ⟨?_, ?_⟩
      · rw [h8b, hhspec, heffspec, hhretry, heffretry]
      · rw [hhretry, heffretry] at h8c
        exact h8c
  · rw [hd, hq]
    have hlt := finalize_phi_lt cfg (step_state cfg E B O s j rest)
      (run_one_status (step_eff cfg E B O s j).exc (step_eff cfg E B O s j).job) rest rfl
    have hPhiEq : Phi cfg.max_retries (step_state cfg E B O s j rest).job_queue =
        Phi cfg.max_retries (j :: rest) := by
      show contrib cfg.max_retries
          (run_one_status (step_eff cfg E B O s j).exc (step_eff cfg E B O s j).job) +
          Phi cfg.max_retries rest =
        contrib cfg.max_retries j + Phi cfg.max_retries rest
      rw [contrib_congr cfg.max_retries _ j (hhretry.trans heffretry)]
    rw [hPhiEq] at hlt
    exact hlt
  · intro sid2
    rw [hd]
    have hp := psi_finalize_le cfg sid2 (step_state cfg E B O s j rest)
    have hpsame : psi cfg sid2 (step_state cfg E B O s j rest) = psi cfg sid2 s := by
      unfold psi
      rw [hq]
      show countJobs sid2 s.completed_jobs + PhiSid sid2 cfg.max_retries
          (run_one_status (step_eff cfg E B O s j).exc (step_eff cfg E B O s j).job :: rest) =
        countJobs sid2 s.completed_jobs + PhiSid sid2 cfg.max_retries (j :: rest)
      rw [PhiSid_cons, PhiSid_cons, hhspec, heffspec,
          contrib_congr cfg.max_retries _ j (hhretry.trans heffretry)]
    rw [hpsame] at hp
    exact hp

/-! ### Lemmas on the drain loops and the run loop -/

/-- Auxiliary: a drain loop with sufficient fuel empties the queue,
appending one record per drained job (retries included) with the drain
status, without executing anything and without touching the ghost hook
flag; every drained record was admitted with `aborted` already set. -/
theorem drain_loopF_spec (cfg : RConfig) (st : Status) :
    ∀ (n : Nat) (s : RState),
      Phi cfg.max_retries s.job_queue ≤ n →
      s.aborted = true →
      (∀ x ∈ s.job_queue, x.executed = false) →
      ∃ L : List RJob,
        (drain_loopF cfg st n s).completed_jobs = s.completed_jobs ++ L ∧
        (drain_loopF cfg st n s).iteration_results = s.iteration_results ++ L ∧
        (drain_loopF cfg st n s).job_queue = [] ∧
        (drain_loopF cfg st n s).aborted = true ∧
        (drain_loopF cfg st n s).hookAfterAbort = s.hookAfterAbort ∧
        s.job_queue.length ≤ L.length ∧
        (∀ x ∈ L, x.status = st ∧ x.executed = false ∧ x.abortedAtInit = true) := by
  intro n
  induction n with
  | zero =>
      intro s hphi hab _
      cases hq : s.job_queue with
      | nil =>
          refine ⟨[], by simp [drain_loopF], by simp [drain_loopF], ?_, ?_, rfl, ?_, ?_⟩
          · rw [show drain_loopF cfg st 0 s = s from rfl]
            exact hq
          · exact hab
          · exact Nat.le_refl _
          · intro x hx
            simp at hx
      | cons j q =>
          exfalso
          rw [hq] at hphi
          have := Phi_pos cfg.max_retries j q
          omega
  | succ n ih =>
      intro s hphi hab hfr
      cases hq : s.job_queue with
      | nil =>
          have hid : drain_loopF cfg st (n + 1) s = s := by
            simp only [drain_loopF, hq]
          refine ⟨[], by rw [hid]; simp, by rw [hid]; simp, by rw [hid]; exact hq,
            by rw [hid]; exact hab, by rw [hid], Nat.le_refl _, ?_⟩
          intro x hx
          simp at hx
      | cons j q =>
          have hstep : drain_loopF cfg st (n + 1) s =
              drain_loopF cfg st n (drain_one cfg st s) := by
            simp only [drain_loopF, hq]
          obtain ⟨dj, hd1, hd2, hdst, hdex, hdai, hdab, hdhk, _, _, hdq, hdphi, _⟩ :=
            drain_one_spec cfg st s j q hq
          have hphi2 : Phi cfg.max_retries (drain_one cfg st s).job_queue ≤ n := by
            rw [hq] at hphi hdphi
            omega
          have hab2 : (drain_one cfg st s).aborted = true := by
            rw [hdab, hab]
            rfl
          have hfr2 : ∀ x ∈ (drain_one cfg st s).job_queue, x.executed = false := by
            rcases hdq with hq2 | ⟨rj, hq2, hrj⟩
            · rw [hq2]
              intro x hx
              exact hfr x (by rw [hq]; exact List.mem_cons_of_mem _ hx)
            · rw [hq2]
              intro x hx
              rcases List.mem_cons.mp hx with hx1 | hx2
              · rw [hx1]
                exact hrj
              · exact hfr x (by rw [hq]; exact List.mem_cons_of_mem _ hx2)
          obtain ⟨L, hL1, hL2, hL3, hL4, hL5, hL6, hL7⟩ := ih (drain_one cfg st s) hphi2 hab2 hfr2
          refine ⟨dj :: L, ?_, ?_, ?_, ?_, ?_, ?_, ?_⟩
          · rw [hstep, hL1, hd1]
            simp
          · rw [hstep, hL2, hd2]
            simp
          · rw [hstep]
            exact hL3
          · rw [hstep]
            exact hL4
          · rw [hstep, hL5, hdhk]
          · rcases hdq with hq2 | ⟨rj, hq2, _⟩
            · rw [hq2] at hL6
              simp only [List.length_cons]
              omega
            · rw [hq2] at hL6
              simp only [List.length_cons] at hL6 ⊢
              omega
          · intro x hx
            rcases List.mem_cons.mp hx with hx1 | hx2
            · rw [hx1]
              refine ⟨hdst, ?_, ?_⟩
              · rw [hdex]
                exact hfr j (by rw [hq]; exact List.mem_cons_self j q)
              · rw [hdai]
                exact hab
            · exact hL7 x hx2

/-- Auxiliary: the per-spec potential never increases along a drain. -/
theorem psi_drain_le (cfg : RConfig) (st : Status) (sid : Nat) :
    ∀ (n : Nat) (s : RState), psi cfg sid (drain_loopF cfg st n s) ≤ psi cfg sid s := by
  intro n
  induction n with
  | zero => intro s; exact Nat.le_refl _
  | succ n ih =>
      intro s
      cases hq : s.job_queue with
      | nil =>
          have hid : drain_loopF cfg st (n + 1) s = s := by
            simp only [drain_loopF, hq]
          rw [hid]
      | cons j q =>
          have hstep : drain_loopF cfg st (n + 1) s =
              drain_loopF cfg st n (drain_one cfg st s) := by
            simp only [drain_loopF, hq]
          obtain ⟨dj, _, _, _, _, _, _, _, _, _, _, _, hdpsi⟩ :=
            drain_one_spec cfg st s j q hq
          rw [hstep]
          exact Nat.le_trans (ih (drain_one cfg st s)) (hdpsi sid)

/-- Auxiliary: the per-spec potential never increases along the run loop. -/
theorem psi_runloop_le (cfg : RConfig) (E : Nat → Bool) (B : Nat → BootRes)
    (O : Nat → Outcome) (sid : Nat) :
    ∀ (n : Nat) (s : RState), psi cfg sid (run_loopF cfg E B O n s) ≤ psi cfg sid s := by
  intro n
  induction n with
  | zero => intro s; exact Nat.le_refl _
  | succ n ih =>
      intro s
      cases hq : s.job_queue with
      | nil =>
          have hid : run_loopF cfg E B O (n + 1) s = s := by
            simp only [run_loopF, hq]
          rw [hid]
      | cons j q =>
          obtain ⟨jj, _, _, _, _, _, _, _, _, _, _, _, _, _, _, _, _, _, hpsi⟩ :=
            run_one_spec cfg E B O s j q hq
          rcases hro : run_one cfg E B O s with ⟨s2, ex⟩
          have hpsi2 : psi cfg sid s2 ≤ psi cfg sid s := by
            have h := hpsi sid
            rw [hro] at h
            exact h
          cases ex with
          | cont e =>
              have hstep : run_loopF cfg E B O (n + 1) s = run_loopF cfg E B O n s2 := by
                simp only [run_loopF, hq, hro]
              rw [hstep]
              exact Nat.le_trans (ih s2) hpsi2
          | interrupted =>
              have hstep : run_loopF cfg E B O (n + 1) s = drain_loop cfg .ABORTED s2 := by
                simp only [run_loopF, hq, hro]
              rw [hstep]
              exact Nat.le_trans (psi_drain_le cfg .ABORTED sid _ s2) hpsi2
          | unresponsive =>
              have hstep : run_loopF cfg E B O (n + 1) s =
                  drain_loop cfg .SKIPPED { s2 with aborted := true } := by
                simp only [run_loopF, hq, hro]
              rw [hstep]
              have h1 : psi cfg sid (drain_loop cfg .SKIPPED { s2 with aborted := true }) ≤
                  psi cfg sid { s2 with aborted := true } :=
                psi_drain_le cfg .SKIPPED sid _ _
              have h2 : psi cfg sid { s2 with aborted := true } = psi cfg sid s2 := rfl
              rw [h2] at h1
              exact Nat.le_trans h1 hpsi2

/-- Auxiliary: the accounting invariant survives a drain, and the drain
leaves no current job. -/
theorem ctx_inv_drain (cfg : RConfig) (st : Status) :
    ∀ (n : Nat) (s : RState), ctx_inv s → s.current_job = none →
      ctx_inv (drain_loopF cfg st n s) ∧ (drain_loopF cfg st n s).current_job = none := by
  intro n
  induction n with
  | zero => intro s hinv hcur; exact ⟨hinv, hcur⟩
  | succ n ih =>
      intro s hinv hcur
      cases hq : s.job_queue with
      | nil =>
          have hid : drain_loopF cfg st (n + 1) s = s := by
            simp only [drain_loopF, hq]
          rw [hid]
          exact ⟨hinv, hcur⟩
      | cons j q =>
          have hstep : drain_loopF cfg st (n + 1) s =
              drain_loopF cfg st n (drain_one cfg st s) := by
            simp only [drain_loopF, hq]
          obtain ⟨dj, _, hd2, _, _, _, _, _, hdcur, hdcnt, _, _, _⟩ :=
            drain_one_spec cfg st s j q hq
          have hinv2 : ctx_inv (drain_one cfg st s) := by
            unfold ctx_inv at hinv ⊢
            rw [hcur] at hinv
            rw [hd2, hdcnt, hdcur]
            simp at hinv ⊢
            omega
          rw [hstep]
          exact ih (drain_one cfg st s) hinv2 hdcur

/-- Auxiliary: the accounting invariant survives the run loop, drains
included, and the loop leaves no current job. -/
theorem ctx_inv_runloop (cfg : RConfig) (E : Nat → Bool) (B : Nat → BootRes)
    (O : Nat → Outcome) :
    ∀ (n : Nat) (s : RState), ctx_inv s → s.current_job = none →
      ctx_inv (run_loopF cfg E B O n s) ∧ (run_loopF cfg E B O n s).current_job = none := by
  intro n
  induction n with
  | zero => intro s hinv hcur; exact ⟨hinv, hcur⟩
  | succ n ih =>
      intro s hinv hcur
      cases hq : s.job_queue with
      | nil =>
          have hid : run_loopF cfg E B O (n + 1) s = s := by
            simp only [run_loopF, hq]
          rw [hid]
          exact ⟨hinv, hcur⟩
      | cons j q =>
          obtain ⟨jj, _, h2, h3, h4, _, _, _, _, _, _, _, _, _, _, _, _, _, _⟩ :=
            run_one_spec cfg E B O s j q hq
          rcases hro : run_one cfg E B O s with ⟨s2, ex⟩
          rw [hro] at h2 h3 h4
          have hinv2 : ctx_inv s2 := by
            unfold ctx_inv at hinv ⊢
            rw [hcur] at hinv
            simp only at h2 h3 h4
            rw [h2, h3, h4]
            simp only [List.length_append, List.length_cons, List.length_nil,
              Option.isSome_none, Bool.false_eq_true, if_false] at *
            omega
          have hcur2 : s2.current_job = none := h4
          cases ex with
          | cont e =>
              have hstep : run_loopF cfg E B O (n + 1) s = run_loopF cfg E B O n s2 := by
                simp only [run_loopF, hq, hro]
              rw [hstep]
              exact ih s2 hinv2 hcur2
          | interrupted =>
              have hstep : run_loopF cfg E B O (n + 1) s = drain_loop cfg .ABORTED s2 := by
                simp only [run_loopF, hq, hro]
              rw [hstep]
              exact ctx_inv_drain cfg .ABORTED _ s2 hinv2 hcur2
          | unresponsive =>
              have hstep : run_loopF cfg E B O (n + 1) s =
                  drain_loop cfg .SKIPPED { s2 with aborted := true } := by
                simp only [run_loopF, hq, hro]
              rw [hstep]
              exact ctx_inv_drain cfg .SKIPPED _ { s2 with aborted := true } hinv2 hcur2

/-- Auxiliary: from a state with an unexecuted queue, a clean completed
list, `aborted` unset and the ghost hook flag unset, the run loop never
executes a workload body after `aborted` is set, and every job finalized
after `aborted` was set carries `ABORTED` or `SKIPPED` without having
executed. -/
theorem no_hook_after_abort_aux (cfg : RConfig) (E : Nat → Bool) (B : Nat → BootRes)
    (O : Nat → Outcome) :
    ∀ (n : Nat) (s : RState),
      (∀ x ∈ s.job_queue, x.executed = false) →
      (∀ x ∈ s.completed_jobs, x.abortedAtInit = false) →
      s.aborted = false →
      s.hookAfterAbort = false →
      (run_loopF cfg E B O n s).hookAfterAbort = false ∧
      (∀ x ∈ (run_loopF cfg E B O n s).completed_jobs,
        x.abortedAtInit = true →
          (x.status = Status.ABORTED ∨ x.status = Status.SKIPPED) ∧ x.executed = false) := by
  intro n
  induction n with
  | zero =>
      intro s _ hcl hab hhk
      refine ⟨hhk, ?_⟩
      intro x hx hai
      rw [hcl x hx] at hai
      cases hai
  | succ n ih =>
      intro s hfr hcl hab hhk
      cases hq : s.job_queue with
      | nil =>
          have hid : run_loopF cfg E B O (n + 1) s = s := by
            simp only [run_loopF, hq]
          rw [hid]
          refine ⟨hhk, ?_⟩
          intro x hx hai
          rw [hcl x hx] at hai
          cases hai
      | cons j q =>
          obtain ⟨jj, h1, _, _, _, _, h6, h7, _, _, h10, h11, h12, h13, _, _, h16, _, _⟩ :=
            run_one_spec cfg E B O s j q hq
          rcases hro : run_one cfg E B O s with ⟨s2, ex⟩
          rw [hro] at h1 h6 h7 h11 h12 h13 h16
          simp only at h1 h6 h7 h11 h12 h13 h16
          have hfr2 : ∀ x ∈ s2.job_queue, x.executed = false := by
            rcases h16 with h16a | ⟨h16b, _⟩
            · rw [h16a]
              intro x hx
              exact hfr x (by rw [hq]; exact List.mem_cons_of_mem _ hx)
            · rw [h16b]
              intro x hx
              rcases List.mem_cons.mp hx with hx1 | hx2
              · rw [hx1]
                rfl
              · exact hfr x (by rw [hq]; exact List.mem_cons_of_mem _ hx2)
          have hcl2 : ∀ x ∈ s2.completed_jobs, x.abortedAtInit = false := by
            rw [h1]
            intro x hx
            rcases List.mem_append.mp hx with hx1 | hx2
            · exact hcl x hx1
            · rw [List.mem_singleton.mp hx2]
              rw [h10, hab]
          have hhk2 : s2.hookAfterAbort = false := by
            rw [h7 hab, hhk]
          cases ex with
          | cont e =>
              have hab2 : s2.aborted = false := by
                have hne := h12 e rfl
                rw [h6, hab]
                simp only [Bool.false_or]
                exact beq_eq_false_iff_ne.mpr hne
              have hstep : run_loopF cfg E B O (n + 1) s = run_loopF cfg E B O n s2 := by
                simp only [run_loopF, hq, hro]
              rw [hstep]
              exact ih s2 hfr2 hcl2 hab2 hhk2
          | interrupted =>
              have hab2 : s2.aborted = true := by
                rw [h6, h11 rfl, hab]
                rfl
              have hstep : run_loopF cfg E B O (n + 1) s = drain_loop cfg .ABORTED s2 := by
                simp only [run_loopF, hq, hro]
              rw [hstep]
              obtain ⟨L, hL1, _, _, _, hL5, _, hL7⟩ :=
                drain_loopF_spec cfg .ABORTED (Phi cfg.max_retries s2.job_queue) s2
                  (Nat.le_refl _) hab2 hfr2
              refine ⟨by rw [show drain_loop cfg .ABORTED s2 =
                  drain_loopF cfg .ABORTED (Phi cfg.max_retries s2.job_queue) s2 from rfl,
                  hL5, hhk2], ?_⟩
              intro x hx hai
              rw [show drain_loop cfg .ABORTED s2 =
                drain_loopF cfg .ABORTED (Phi cfg.max_retries s2.job_queue) s2 from rfl, hL1]
                at hx
              rcases List.mem_append.mp hx with hx1 | hx2
              · rw [hcl2 x hx1] at hai
                cases hai
              · obtain ⟨hst, hex, _⟩ := hL7 x hx2
                exact ⟨Or.inl hst, hex⟩
          | unresponsive =>
              have hstep : run_loopF cfg E B O (n + 1) s =
                  drain_loop cfg .SKIPPED { s2 with aborted := true } := by
                simp only [run_loopF, hq, hro]
              rw [hstep]
              have hfr3 : ∀ x ∈ ({ s2 with aborted := true } : RState).job_queue,
                  x.executed = false := hfr2
              obtain ⟨L, hL1, _, _, _, hL5, _, hL7⟩ :=
                drain_loopF_spec cfg .SKIPPED
                  (Phi cfg.max_retries ({ s2 with aborted := true } : RState).job_queue)
                  { s2 with aborted := true } (Nat.le_refl _) rfl hfr3
              refine ⟨by rw [show drain_loop cfg .SKIPPED { s2 with aborted := true } =
                  drain_loopF cfg .SKIPPED
                    (Phi cfg.max_retries ({ s2 with aborted := true } : RState).job_queue)
                    { s2 with aborted := true } from rfl, hL5]; exact hhk2, ?_⟩
              intro x hx hai
              rw [show drain_loop cfg .SKIPPED { s2 with aborted := true } =
                drain_loopF cfg .SKIPPED
                  (Phi cfg.max_retries ({ s2 with aborted := true } : RState).job_queue)
                  { s2 with aborted := true } from rfl, hL1] at hx
              rcases List.mem_append.mp hx with hx1 | hx2
              · rw [hcl2 x hx1] at hai
                cases hai
              · obtain ⟨hst, hex, _⟩ := hL7 x hx2
                exact ⟨Or.inr hst, hex⟩

/-- Auxiliary: on a queue of fresh (retry 0) jobs the per-spec potential
is the job count times `max_retries + 1`. -/
theorem PhiSid_all_retry_zero (sid M : Nat) (q : List RJob) (h : ∀ x ∈ q, x.retry = 0) :
    PhiSid sid M q = countJobs sid q * (M + 1) := by
  induction q with
  | nil => simp [PhiSid, countJobs]
  | cons x xs ih =>
      have hx : x.retry = 0 := h x (List.mem_cons_self x xs)
      have hcontrib : contrib M x = M + 1 := by
        unfold contrib
        rw [hx]
        simp
      have ih2 := ih (fun y hy => h y (List.mem_cons_of_mem x hy))
      rw [PhiSid_cons, hcontrib, ih2,
        show countJobs sid (x :: xs) = (if x.spec.sid == sid then 1 else 0) + countJobs sid xs
          from rfl]
      by_cases hs : (x.spec.sid == sid) = true
      · rw [if_pos hs, if_pos hs]
        ring
      · rw [if_neg hs, if_neg hs]
        ring

/-- Auxiliary: one stalled `device.boot` attempt moves `_reboot_device`
to the next attempt. -/
theorem reboot_attempts_fail_step (boots : Nat → BootRes) (clk n : Nat)
    (h : boots clk = .fail) :
    reboot_attempts boots clk (n + 1) = reboot_attempts boots (clk + 1) n := by
  conv_lhs => rw [reboot_attempts]
  rw [h]

/-! ### The remaining claims -/

/-- C5: the `ExecutionContext` accounting invariant
`sum(job_iteration_counts.values()) = len(run_result.iteration_results) + (1 if current_job else 0)`
holds after initialization, is preserved by every `next_job` transition
taken with no current job and by every `_finalize_job` transition (which
embeds `end_job`) taken with a current job — the only ways the Runner's
job loop invokes them — and consequently holds at every loop boundary of
the run loop and of the abort/skip drain loops. -/
theorem accounting_invariant (cfg : RConfig) (E : Nat → Bool) (B : Nat → BootRes)
    (O : Nat → Outcome) :
    (∀ q : List RJob, ctx_inv (init_state q)) ∧
    (∀ (s : RState) (j : RJob), ctx_inv s → s.current_job = none →
       ctx_inv (ctx_next_job s j)) ∧
    (∀ s : RState, ctx_inv s → s.current_job.isSome = true →
       ctx_inv (finalize_job cfg s)) ∧
    (∀ (n : Nat) (s : RState), ctx_inv s → s.current_job = none →
       ctx_inv (run_loopF cfg E B O n s)) ∧
    (∀ (st : Status) (n : Nat) (s : RState), ctx_inv s → s.current_job = none →
       ctx_inv (drain_loopF cfg st n s)) := by
  refine ⟨?_, ?_, ?_, ?_, ?_⟩
  · intro q
    simp [ctx_inv, init_state]
  · intro s j hinv hcur
    unfold ctx_inv at hinv ⊢
    rw [hcur] at hinv
    unfold ctx_next_job
    simp at hinv ⊢
    omega
  · intro s hinv hsome
    cases hq : s.job_queue with
    | nil =>
        have hid : finalize_job cfg s = s := by
          unfold finalize_job
          rw [hq]
        rw [hid]
        exact hinv
    | cons j rest =>
        obtain ⟨_, hf2, hf3, _, _, hf6, _, _⟩ := finalize_job_spec cfg s j rest hq
        unfold ctx_inv at hinv ⊢
        rw [hsome] at hinv
        rw [hf2, hf3, hf6]
        simp at hinv ⊢
        omega
  · intro n s hinv hcur
    exact (ctx_inv_runloop cfg E B O n s hinv hcur).1
  · intro st n s hinv hcur
    exact (ctx_inv_drain cfg st n s hinv hcur).1

/-- Witness for C5 at concrete states. -/
theorem accounting_invariant_witness :
    (ctx_inv (init_state qDemo2) ∧ (init_state qDemo2).current_job = none) ∧
    ctx_inv (init_state qDemo2) ∧
    ctx_inv (ctx_next_job (init_state qDemo2) (RunnerJob (wspec1 0) 0)) ∧
    ctx_inv (run_loopF cfg0 enabledAll bootsOk outcomesKI 3 (init_state qDemo2)) ∧
    ctx_inv (drain_loopF cfg0 Status.ABORTED 3 (init_state qDemo2)) :=
  ⟨⟨by decide, rfl⟩,
   (accounting_invariant cfg0 enabledAll bootsOk outcomesKI).1 qDemo2,
   (accounting_invariant cfg0 enabledAll bootsOk outcomesKI).2.1 (init_state qDemo2)
     (RunnerJob (wspec1 0) 0) (by decide) rfl,
   (accounting_invariant cfg0 enabledAll bootsOk outcomesKI).2.2.2.1 3 (init_state qDemo2)
     (by decide) rfl,
   (accounting_invariant cfg0 enabledAll bootsOk outcomesKI).2.2.2.2 Status.ABORTED 3
     (init_state qDemo2) (by decide) rfl⟩

/-- C7: once `context.aborted` is set, the Runner's job loop never invokes
another workload hook (the ghost `hookAfterAbort` flag stays down), and
every job finalized after `aborted` was set — the drained remainder of the
queue — is appended to `run_result.iteration_results` with status
`ABORTED` or `SKIPPED` and its body never executed.  Stated for every
fuel (i.e. every reachable loop boundary) and for the full run. -/
theorem no_hooks_after_abort (cfg : RConfig) (E : Nat → Bool) (B : Nat → BootRes)
    (O : Nat → Outcome) (n : Nat) (s : RState)
    (hfr : ∀ x ∈ s.job_queue, x.executed = false)
    (hcl : ∀ x ∈ s.completed_jobs, x.abortedAtInit = false)
    (hab : s.aborted = false)
    (hhk : s.hookAfterAbort = false) :
    ((run_loopF cfg E B O n s).hookAfterAbort = false ∧
      ∀ x ∈ (run_loopF cfg E B O n s).completed_jobs,
        x.abortedAtInit = true →
          (x.status = Status.ABORTED ∨ x.status = Status.SKIPPED) ∧ x.executed = false) ∧
    ((runner_run cfg E B O s).hookAfterAbort = false ∧
      ∀ x ∈ (runner_run cfg E B O s).completed_jobs,
        x.abortedAtInit = true →
          (x.status = Status.ABORTED ∨ x.status = Status.SKIPPED) ∧ x.executed = false) := by
  refine ⟨no_hook_after_abort_aux cfg E B O n s hfr hcl hab hhk, ?_⟩
  exact no_hook_after_abort_aux cfg E B O (Phi cfg.max_retries s.job_queue) s hfr hcl hab hhk

/-- Witness for C7 at a concrete interrupted run. -/
theorem no_hooks_after_abort_witness :
    ((∀ x ∈ (init_state qDemo2).job_queue, x.executed = false) ∧
      (∀ x ∈ (init_state qDemo2).completed_jobs, x.abortedAtInit = false) ∧
      (init_state qDemo2).aborted = false ∧
      (init_state qDemo2).hookAfterAbort = false) ∧
    (((run_loopF cfg0 enabledAll bootsOk outcomesKI 4 (init_state qDemo2)).hookAfterAbort = false ∧
      ∀ x ∈ (run_loopF cfg0 enabledAll bootsOk outcomesKI 4 (init_state qDemo2)).completed_jobs,
        x.abortedAtInit = true →
          (x.status = Status.ABORTED ∨ x.status = Status.SKIPPED) ∧ x.executed = false) ∧
     ((runner_run cfg0 enabledAll bootsOk outcomesKI (init_state qDemo2)).hookAfterAbort = false ∧
      ∀ x ∈ (runner_run cfg0 enabledAll bootsOk outcomesKI (init_state qDemo2)).completed_jobs,
        x.abortedAtInit = true →
          (x.status = Status.ABORTED ∨ x.status = Status.SKIPPED) ∧ x.executed = false)) :=
  ⟨⟨by decide, by decide, rfl, rfl⟩,
   no_hooks_after_abort cfg0 enabledAll bootsOk outcomesKI 4 (init_state qDemo2)
     (by decide) (by decide) rfl rfl⟩

/-- C4: at `_finalize_job`, exactly when the finished job's final status
is in `retry_on_status` and its retry count is strictly below
`max_retries`, a freshly-constructed job with the same spec and `retry+1`
is inserted at index 0 of the queue; otherwise the queue just loses its
head.  Consequently, for a spec entering the queue with `N` fresh jobs,
`completed_jobs` never holds more than `N * (max_retries + 1)` jobs of
that spec at any point of the run loop. -/
theorem retry_insertion_and_completed_bound (cfg : RConfig) (E : Nat → Bool)
    (B : Nat → BootRes) (O : Nat → Outcome) :
    (∀ (s : RState) (j : RJob) (rest : List RJob), s.job_queue = j :: rest →
       ((cfg.retry_on_status.contains j.status = true ∧ j.retry < cfg.max_retries) →
          (finalize_job cfg s).job_queue = RunnerJob j.spec (j.retry + 1) :: rest) ∧
       (¬(cfg.retry_on_status.contains j.status = true ∧ j.retry < cfg.max_retries) →
          (finalize_job cfg s).job_queue = rest)) ∧
    (∀ (sid N : Nat) (q : List RJob),
       countJobs sid q = N → (∀ x ∈ q, x.retry = 0) →
       ∀ n, countJobs sid (run_loopF cfg E B O n (init_state q)).completed_jobs ≤
         N * (cfg.max_retries + 1)) := by
  constructor
  · intro s j rest h
    constructor
    · intro hc
      have hcond : (cfg.retry_on_status.contains j.status &&
          decide (j.retry < cfg.max_retries)) = true := by
        rw [hc.1]
        simp only [Bool.true_and, decide_eq_true_eq]
        exact hc.2
      unfold finalize_job ctx_end_job
      rw [h]
      dsimp only
      rw [if_pos hcond]
    · intro hnc
      have hcond : ¬((cfg.retry_on_status.contains j.status &&
          decide (j.retry < cfg.max_retries)) = true) := by
        intro hcond2
        apply hnc
        simp only [Bool.and_eq_true, decide_eq_true_eq] at hcond2
        exact hcond2
      unfold finalize_job ctx_end_job
      rw [h]
      dsimp only
      rw [if_neg hcond]
  · intro sid N q hcount hret n
    have hb := psi_runloop_le cfg E B O sid n (init_state q)
    have hinit : psi cfg sid (init_state q) = N * (cfg.max_retries + 1) := by
      show countJobs sid ([] : List RJob) + PhiSid sid cfg.max_retries q = _
      rw [PhiSid_all_retry_zero sid cfg.max_retries q hret, hcount]
      rw [show countJobs sid ([] : List RJob) = 0 from rfl]
      exact Nat.zero_add _
    rw [hinit] at hb
    exact Nat.le_trans (Nat.le_add_right _ _) hb

/-- Witness for C4 at the retry scenario `retry_on_status={FAILED}`,
`max_retries=2`, one spec with one iteration that always fails. -/
theorem retry_insertion_and_completed_bound_witness :
    (countJobs 0 [RunnerJob (wspec1 0) 0] = 1 ∧
      (∀ x ∈ [RunnerJob (wspec1 0) 0], x.retry = 0)) ∧
    countJobs 0 (run_loopF cfgRetry enabledAll bootsOk outcomesW 5
        (init_state [RunnerJob (wspec1 0) 0])).completed_jobs ≤
      1 * (cfgRetry.max_retries + 1) :=
  ⟨⟨by decide, by decide⟩,
   (retry_insertion_and_completed_bound cfgRetry enabledAll bootsOk outcomesW).2 0 1
     [RunnerJob (wspec1 0) 0] (by decide) (by decide) 5⟩

/-- C6 (counterexample): with reboot-on-each-iteration and `device.boot`
always failing (device responsive), the second job's three reboot
attempts all fail, the `DeviceError` escalates and the job is `FAILED` —
but the third job is then processed normally (it runs its own three
reboot attempts, boot clock 6) and also ends `FAILED`: the remaining
queue is NOT drained with `SKIPPED`. -/
theorem reboot_exhaustion_counterexample :
    (runner_run cfgC6 enabledAll bootsFail outcomesOk (init_state qDemo3)).completed_jobs.map
        (fun x => x.status) = [Status.OK, Status.FAILED, Status.FAILED] ∧
    (runner_run cfgC6 enabledAll bootsFail outcomesOk (init_state qDemo3)).completed_jobs.map
        (fun x => x.status) ≠ [Status.OK, Status.FAILED, Status.SKIPPED] ∧
    (runner_run cfgC6 enabledAll bootsFail outcomesOk (init_state qDemo3)).bootClock = 6 := by
  refine ⟨rfl, ?_, rfl⟩
  decide

/-- C6 (amended): when `device.boot` fails on all `MAX_REBOOT_ATTEMPTS = 3`
attempts with the device responsive, `_reboot_device` raises a
`DeviceError` that escalates out of the job body; the run loop marks the
current job `FAILED` without its workload body having run, finalizes it,
and then CONTINUES with the remaining queue (each following job is
processed normally).  The `SKIPPED` drain happens only for an
unrecoverable `DeviceNotRespondingError`. -/
theorem reboot_exhaustion_continues (cfg : RConfig) (E : Nat → Bool) (B : Nat → BootRes)
    (O : Nat → Outcome) :
    (∀ (boots : Nat → BootRes) (clk : Nat),
       boots clk = .fail → boots (clk + 1) = .fail → boots (clk + 2) = .fail →
       reboot_device boots clk = (clk + 3, .error .deverr)) ∧
    (∀ (s s2 : RState), (∀ x ∈ s.job_queue, x.executed = false) →
       run_one cfg E B O s = (s2, .cont (some .deverr)) →
       (∃ jj, s2.completed_jobs = s.completed_jobs ++ [jj] ∧
         s2.iteration_results = s.iteration_results ++ [jj] ∧
         jj.status = Status.FAILED ∧ jj.executed = false) ∧
       (∀ n, run_loopF cfg E B O (n + 1) s = run_loopF cfg E B O n s2)) := by
  constructor
  · intro boots clk h0 h1 h2
    show reboot_attempts boots clk MAX_REBOOT_ATTEMPTS = _
    rw [show MAX_REBOOT_ATTEMPTS = 2 + 1 from rfl, reboot_attempts_fail_step boots clk 2 h0,
      show (2 : Nat) = 1 + 1 from rfl, reboot_attempts_fail_step boots (clk + 1) 1 h1,
      show (1 : Nat) = 0 + 1 from rfl, reboot_attempts_fail_step boots (clk + 1 + 1) 0 h2,
      show reboot_attempts boots (clk + 1 + 1 + 1) 0 =
        (clk + 1 + 1 + 1, Except.error RunErr.deverr) from rfl,
      show clk + 1 + 1 + 1 = clk + 3 by omega]
  · intro s s2 hfr hro
    cases hq : s.job_queue with
    | nil =>
        exfalso
        rw [show run_one cfg E B O s = (s, .cont none) from by unfold run_one; rw [hq]] at hro
        simp at hro
    | cons j rest =>
        obtain ⟨jj, h1, h2, _, _, _, _, _, _, _, _, _, _, _, h14, h15, _, _, _⟩ :=
          run_one_spec cfg E B O s j rest hq
        rw [hro] at h1 h2 h14 h15
        simp only at h1 h2 h14 h15
        constructor
        · refine ⟨jj, h1, h2, h14 RunErr.deverr rfl, ?_⟩
          rw [h15 trivial]
          exact hfr j (by rw [hq]; exact List.mem_cons_self j rest)
        · intro n
          simp only [run_loopF, hq, hro]

/-- Witness for the amended C6 at a concrete mid-run state with a
permanently failing (responsive) device. -/
theorem reboot_exhaustion_continues_witness :
    (bootsFail 0 = .fail ∧ reboot_device bootsFail 0 = (0 + 3, .error .deverr)) ∧
    ((∀ x ∈ sMid.job_queue, x.executed = false) ∧
      run_one cfgC6 enabledAll bootsFail outcomesOk sMid =
        ((run_one cfgC6 enabledAll bootsFail outcomesOk sMid).1, .cont (some .deverr)) ∧
      ((∃ jj, (run_one cfgC6 enabledAll bootsFail outcomesOk sMid).1.completed_jobs =
            sMid.completed_jobs ++ [jj] ∧
          (run_one cfgC6 enabledAll bootsFail outcomesOk sMid).1.iteration_results =
            sMid.iteration_results ++ [jj] ∧
          jj.status = Status.FAILED ∧ jj.executed = false) ∧
        (∀ n, run_loopF cfgC6 enabledAll bootsFail outcomesOk (n + 1) sMid =
          run_loopF cfgC6 enabledAll bootsFail outcomesOk n
            (run_one cfgC6 enabledAll bootsFail outcomesOk sMid).1))) :=
  ⟨⟨rfl, (reboot_exhaustion_continues cfgC6 enabledAll bootsFail outcomesOk).1 bootsFail 0
      rfl rfl rfl⟩,
   by decide, rfl,
   (reboot_exhaustion_continues cfgC6 enabledAll bootsFail outcomesOk).2 sMid
     (run_one cfgC6 enabledAll bootsFail outcomesOk sMid).1 (by decide) rfl⟩

/-- C3: if a `KeyboardInterrupt` is raised while a job is executing
(`run_one` exits `interrupted`), that job is finalized with status
`ABORTED` and its result appended to `run_result.iteration_results`;
every job remaining in the queue is then finalized with status `ABORTED`
without its workload hooks being executed; and `RUN_END` is still emitted
at the end of the run. -/
theorem interrupt_aborts_drains_run_end (cfg : RConfig) (E : Nat → Bool) (B : Nat → BootRes)
    (O : Nat → Outcome) (s s2 : RState)
    (hfr : ∀ x ∈ s.job_queue, x.executed = false)
    (hro : run_one cfg E B O s = (s2, .interrupted)) :
    ∃ jj L,
      (runner_run cfg E B O s).completed_jobs = s.completed_jobs ++ jj :: L ∧
      (runner_run cfg E B O s).iteration_results = s.iteration_results ++ jj :: L ∧
      jj.status = Status.ABORTED ∧
      (∀ x ∈ L, x.status = Status.ABORTED ∧ x.executed = false) ∧
      s.job_queue.length ≤ (jj :: L).length ∧
      (runner_run cfg E B O s).job_queue = [] ∧
      RUN_END ∈ (runner_run cfg E B O s).trace := by
  cases hq : s.job_queue with
  | nil =>
      exfalso
      rw [show run_one cfg E B O s = (s, .cont none) from by unfold run_one; rw [hq]] at hro
      simp at hro
  | cons j rest =>
      obtain ⟨jj, h1, h2, _, _, _, h6, _, _, _, _, h11, _, _, _, _, h16, _, _⟩ :=
        run_one_spec cfg E B O s j rest hq
      rw [hro] at h1 h2 h6 h11 h16
      simp only at h1 h2 h6 h11 h16
      have hjst : jj.status = Status.ABORTED := h11 trivial
      have hab2 : s2.aborted = true := by
        rw [h6, hjst]
        simp
      have hfr2 : ∀ x ∈ s2.job_queue, x.executed = false := by
        rcases h16 with h16a | ⟨h16b, _⟩
        · rw [h16a]
          intro x hx
          exact hfr x (by rw [hq]; exact List.mem_cons_of_mem _ hx)
        · rw [h16b]
          intro x hx
          rcases List.mem_cons.mp hx with hx1 | hx2
          · rw [hx1]
            rfl
          · exact hfr x (by rw [hq]; exact List.mem_cons_of_mem _ hx2)
      obtain ⟨m, hm⟩ : ∃ m, Phi cfg.max_retries s.job_queue = m + 1 := by
        rw [hq]
        have := Phi_pos cfg.max_retries j rest
        exact ⟨Phi cfg.max_retries (j :: rest) - 1, by omega⟩
      have hloop : run_loopF cfg E B O (Phi cfg.max_retries s.job_queue) s =
          drain_loop cfg .ABORTED s2 := by
        rw [hm]
        simp only [run_loopF, hq, hro]
      obtain ⟨L, hL1, hL2, hL3, _, _, hL6, hL7⟩ :=
        drain_loopF_spec cfg .ABORTED (Phi cfg.max_retries s2.job_queue) s2
          (Nat.le_refl _) hab2 hfr2
      have hdr : drain_loop cfg .ABORTED s2 =
          drain_loopF cfg .ABORTED (Phi cfg.max_retries s2.job_queue) s2 := rfl
      refine ⟨jj, L, ?_, ?_, hjst, ?_, ?_, ?_, ?_⟩
      · show (run_loopF cfg E B O (Phi cfg.max_retries s.job_queue) s).completed_jobs =
          s.completed_jobs ++ jj :: L
        rw [hloop, hdr, hL1, h1]
        simp
      · show (run_loopF cfg E B O (Phi cfg.max_retries s.job_queue) s).iteration_results =
          s.iteration_results ++ jj :: L
        rw [hloop, hdr, hL2, h2]
        simp
      · intro x hx
        obtain ⟨ha, hb, _⟩ := hL7 x hx
        exact ⟨ha, hb⟩
      · simp only [List.length_cons]
        rcases h16 with h16a | ⟨h16b, _⟩
        · rw [h16a] at hL6
          omega
        · rw [h16b] at hL6
          simp only [List.length_cons] at hL6
          omega
      · show (run_loopF cfg E B O (Phi cfg.max_retries s.job_queue) s).job_queue = []
        rw [hloop, hdr]
        exact hL3
      · show RUN_END ∈
          (run_loopF cfg E B O (Phi cfg.max_retries s.job_queue) s).trace ++ [RUN_END]
        simp

/-- Witness for C3 at a two-job run whose first body raises
`KeyboardInterrupt`. -/
theorem interrupt_aborts_drains_run_end_witness :
    ((∀ x ∈ sKI.job_queue, x.executed = false) ∧
      run_one cfg0 enabledAll bootsOk outcomesKI sKI =
        ((run_one cfg0 enabledAll bootsOk outcomesKI sKI).1, .interrupted)) ∧
    (∃ jj L,
      (runner_run cfg0 enabledAll bootsOk outcomesKI sKI).completed_jobs =
        sKI.completed_jobs ++ jj :: L ∧
      (runner_run cfg0 enabledAll bootsOk outcomesKI sKI).iteration_results =
        sKI.iteration_results ++ jj :: L ∧
      jj.status = Status.ABORTED ∧
      (∀ x ∈ L, x.status = Status.ABORTED ∧ x.executed = false) ∧
      sKI.job_queue.length ≤ (jj :: L).length ∧
      (runner_run cfg0 enabledAll bootsOk outcomesKI sKI).job_queue = [] ∧
      RUN_END ∈ (runner_run cfg0 enabledAll bootsOk outcomesKI sKI).trace) :=
  ⟨⟨by decide, rfl⟩,
   interrupt_aborts_drains_run_end cfg0 enabledAll bootsOk outcomesKI sKI
     (run_one cfg0 enabledAll bootsOk outcomesKI sKI).1 (by decide) rfl⟩

end WA
